import Mathlib

/-!
Verification of the event normalization and hashing pipeline of the
Meta CAPI proxy (src/main.py) against its specification.

The Python functions are shallowly embedded: Python's dynamically typed
values become the inductive `PyValue`; dicts become association lists in
insertion order (Python dicts have unique keys and preserve insertion
order); functions that can raise an uncaught exception return `Except`.
Machine concerns that the claims do not touch are simplified with an
explicit note at the definition (full-Unicode lowercasing/whitespace is
modelled on its ASCII subset, binary floating point is modelled by exact
rationals plus infinities/NaN, container `str()` rendering is abbreviated).
-/

/-- Python runtime values, as far as the pipeline can observe them.
`float` is modelled by an exact rational; the IEEE special values that
`float(...)` can produce are the separate constructors `inf`/`nan`
(rounding is not modelled; the claims only involve exactly representable
values such as 0.0 and 10.0). -/
inductive PyValue where
  | pynone
  | bool (b : Bool)
  | int (n : Int)
  | float (q : Rat)
  | inf (neg : Bool)
  | nan
  | str (s : String)
  | list (xs : List PyValue)
  | dict (kvs : List (String × PyValue))

/-- Python truthiness (`bool(v)`): None/False/0/0.0/""/[]/{} are falsy. -/
def PyValue.truthy : PyValue → Bool
  | .pynone => false
  | .bool b => b
  | .int n => n != 0
  | .float q => q != 0
  | .inf _ => true
  | .nan => true
  | .str s => s != ""
  | .list xs => !xs.isEmpty
  | .dict kvs => !kvs.isEmpty

def PyValue.isStr : PyValue → Bool
  | .str _ => true
  | _ => false

/-- The underlying string of a `str` value (anything else projects to ""). -/
def PyValue.asStr : PyValue → String
  | .str s => s
  | _ => ""

/-- Characters Python's `str.strip()` removes (the ASCII whitespace set;
non-ASCII Unicode whitespace is outside the model). -/
def isPySpace (c : Char) : Bool :=
  c == ' ' || c == '\t' || c == '\n' || c == '\r' || c == '\x0b' || c == '\x0c'

/-- Python `str.strip()`: drop leading and trailing whitespace. -/
def pyStrip (s : String) : String :=
  String.mk (((s.data.dropWhile isPySpace).reverse.dropWhile isPySpace).reverse)

def pyLowerChar (c : Char) : Char :=
  if 'A' ≤ c && c ≤ 'Z' then Char.ofNat (c.toNat + 32) else c

/-- Python `str.lower()` on its ASCII subset (full Unicode case folding is
outside the model; every string the pipeline's claims involve is ASCII). -/
def pyLower (s : String) : String :=
  String.mk (s.data.map pyLowerChar)

/-- UTF-8 encoding of one character (Python `str.encode()` bytewise). -/
def utf8EncodeChar (c : Char) : List Nat :=
  if c.toNat < 128 then [c.toNat]
  else if c.toNat < 2048 then [192 ||| (c.toNat >>> 6), 128 ||| (c.toNat &&& 63)]
  else if c.toNat < 65536 then
    [224 ||| (c.toNat >>> 12), 128 ||| ((c.toNat >>> 6) &&& 63), 128 ||| (c.toNat &&& 63)]
  else
    [240 ||| (c.toNat >>> 18), 128 ||| ((c.toNat >>> 12) &&& 63),
     128 ||| ((c.toNat >>> 6) &&& 63), 128 ||| (c.toNat &&& 63)]

/-- UTF-8 encoding of a string as a list of bytes. -/
def utf8Encode (s : String) : List Nat :=
  s.data.flatMap utf8EncodeChar

/-! ## SHA-256 (FIPS 180-4), over `Nat` with explicit reduction mod 2^32 -/

def M32 : Nat := 4294967296

def add32 (a b : Nat) : Nat := (a + b) % M32

def rotr32 (n x : Nat) : Nat := ((x >>> n) ||| (x <<< (32 - n))) % M32

def not32 (x : Nat) : Nat := x ^^^ (M32 - 1)

def shaCh (x y z : Nat) : Nat := (x &&& y) ^^^ (not32 x &&& z)

def shaMaj (x y z : Nat) : Nat := (x &&& y) ^^^ (x &&& z) ^^^ (y &&& z)

def bigSigma0 (x : Nat) : Nat := rotr32 2 x ^^^ rotr32 13 x ^^^ rotr32 22 x

def bigSigma1 (x : Nat) : Nat := rotr32 6 x ^^^ rotr32 11 x ^^^ rotr32 25 x

def smallSigma0 (x : Nat) : Nat := rotr32 7 x ^^^ rotr32 18 x ^^^ (x >>> 3)

def smallSigma1 (x : Nat) : Nat := rotr32 17 x ^^^ rotr32 19 x ^^^ (x >>> 10)

/-- The SHA-256 round constants (FIPS 180-4 section 4.2.2, by rows of six). -/
def shaK : List Nat :=
  [1116352408, 1899447441, 3049323471, 3921009573, 961987163, 1508970993,
   2453635748, 2870763221, 3624381080, 310598401, 607225278, 1426881987,
   1925078388, 2162078206, 2614888103, 3248222580, 3835390401, 4022224774,
   264347078, 604807628, 770255983, 1249150122, 1555081692, 1996064986,
   2554220882, 2821834349, 2952996808, 3210313671, 3336571891, 3584528711,
   113926993, 338241895, 666307205, 773529912, 1294757372, 1396182291,
   1695183700, 1986661051, 2177026350, 2456956037, 2730485921, 2820302411,
   3259730800, 3345764771, 3516065817, 3600352804, 4094571909, 275423344,
   430227734, 506948616, 659060556, 883997877, 958139571, 1322822218,
   1537002063, 1747873779, 1955562222, 2024104815, 2227730452, 2361852424,
   2428436474, 2756734187, 3204031479, 3329325298]

structure Hash8 where
  w0 : Nat
  w1 : Nat
  w2 : Nat
  w3 : Nat
  w4 : Nat
  w5 : Nat
  w6 : Nat
  w7 : Nat
deriving Repr, DecidableEq

/-- The SHA-256 initial hash value (FIPS 180-4 section 5.3.3). -/
def shaInit : Hash8 :=
  ⟨1779033703, 3144134277, 1013904242, 2773480762,
   1359893119, 2600822924, 528734635, 1541459225⟩

/-- One compression round. -/
def shaRound (st : Hash8) (kw : Nat × Nat) : Hash8 :=
  let t1 := add32 st.w7 (add32 (bigSigma1 st.w4)
    (add32 (shaCh st.w4 st.w5 st.w6) (add32 kw.1 kw.2)))
  let t2 := add32 (bigSigma0 st.w0) (shaMaj st.w0 st.w1 st.w2)
  ⟨add32 t1 t2, st.w0, st.w1, st.w2, add32 st.w3 t1, st.w4, st.w5, st.w6⟩

/-- Extend the 16-word message schedule by `n` further words. -/
def extendSchedule : List Nat → Nat → List Nat
  | w, 0 => w
  | w, n + 1 =>
    let len := w.length
    let nw := add32 (add32 (smallSigma1 (w.getD (len - 2) 0)) (w.getD (len - 7) 0))
      (add32 (smallSigma0 (w.getD (len - 15) 0)) (w.getD (len - 16) 0))
    extendSchedule (w ++ [nw]) n

/-- Big-endian 32-bit words from bytes. -/
def bytesToWords : List Nat → List Nat
  | b0 :: b1 :: b2 :: b3 :: rest =>
    (b0 * 16777216 + b1 * 65536 + b2 * 256 + b3) :: bytesToWords rest
  | _ => []

def processBlock (st : Hash8) (block : List Nat) : Hash8 :=
  let w := extendSchedule (bytesToWords block) 48
  let f := (shaK.zip w).foldl shaRound st
  ⟨add32 st.w0 f.w0, add32 st.w1 f.w1, add32 st.w2 f.w2, add32 st.w3 f.w3,
   add32 st.w4 f.w4, add32 st.w5 f.w5, add32 st.w6 f.w6, add32 st.w7 f.w7⟩

/-- Merkle–Damgård padding: 0x80, zeros to 56 mod 64, 8-byte big-endian bit length. -/
def padMessage (msg : List Nat) : List Nat :=
  let len := msg.length
  let bitLen := len * 8
  let z := (120 - (len + 1) % 64) % 64
  msg ++ [128] ++ List.replicate z 0 ++
    [(bitLen >>> 56) % 256, (bitLen >>> 48) % 256, (bitLen >>> 40) % 256,
     (bitLen >>> 32) % 256, (bitLen >>> 24) % 256, (bitLen >>> 16) % 256,
     (bitLen >>> 8) % 256, bitLen % 256]

def splitBlocks : Nat → List Nat → List (List Nat)
  | 0, _ => []
  | n + 1, bs => bs.take 64 :: splitBlocks n (bs.drop 64)

/-- The bytes of one 32-bit word, big-endian. -/
def wordBytes (w : Nat) : List Nat :=
  [(w >>> 24) % 256, (w >>> 16) % 256, (w >>> 8) % 256, w % 256]

/-- SHA-256 digest (32 bytes) of a byte string. -/
def sha256 (msg : List Nat) : List Nat :=
  let padded := padMessage msg
  let f := (splitBlocks (padded.length / 64) padded).foldl processBlock shaInit
  ([f.w0, f.w1, f.w2, f.w3, f.w4, f.w5, f.w6, f.w7]).flatMap wordBytes

/-- The sixteen lowercase hexadecimal digit characters. -/
def hexDigits : List Char :=
  "0123456789abcdef".data

def hexNib (n : Nat) : Char := hexDigits.getD n '0'

/-- Two lowercase hex characters of a byte. -/
def byteHexChars (b : Nat) : List Char := [hexNib ((b / 16) % 16), hexNib (b % 16)]

/-- Lowercase hexadecimal SHA-256 digest, as `hashlib.sha256(..).hexdigest()`. -/
def sha256hex (msg : List Nat) : String :=
  String.mk ((sha256 msg).flatMap byteHexChars)

/-! ## Association lists standing for Python dicts -/

/-- Value of the first entry with key `k` (Python dicts have unique keys,
so the first entry is the entry). -/
def alistLookup {α : Type} (l : List (String × α)) (k : String) : Option α :=
  match l with
  | [] => none
  | (k', v) :: rest => if k' = k then some v else alistLookup rest k

/-- Python `k in d`. -/
def alistContainsKey {α : Type} (l : List (String × α)) (k : String) : Bool :=
  (alistLookup l k).isSome

/-- Python `d.get(k, default)`. -/
def pyGet {α : Type} (l : List (String × α)) (k : String) (default : α) : α :=
  (alistLookup l k).getD default

/-- Python `d[k] = v`: replace the value in place if the key exists
(keeping its position), else append. -/
def alistSet {α : Type} : List (String × α) → String → α → List (String × α)
  | [], k, v => [(k, v)]
  | (k', v') :: rest, k, v =>
    if k' = k then (k, v) :: rest else (k', v') :: alistSet rest k v

/-- Python `d.update(upd)`: repeated `d[k] = v` in iteration order. -/
def dictUpdate {α : Type} (d upd : List (String × α)) : List (String × α) :=
  upd.foldl (fun acc kv => alistSet acc kv.1 kv.2) d

/-! ## Python `str()` and `float()` on pipeline values -/

/-- Python `str(v)` for the values the pipeline can meet. The rendering of
containers and of finite floats is abbreviated (`[...]`, `num/den`): the
pipeline only ever compares this string, lowercased, against `"null"`, and
no real or modelled container/float rendering equals `"null"`. -/
def pyStr : PyValue → String
  | .pynone => "None"
  | .bool true => "True"
  | .bool false => "False"
  | .int n => toString n
  | .float q => toString q.num ++ "/" ++ toString q.den
  | .inf b => if b then "-inf" else "inf"
  | .nan => "nan"
  | .str s => s
  | .list _ => "[...]"
  | .dict _ => "\x7b...\x7d"

/-- Every `'_'` in the character list is flanked by digits on both sides
(CPython's rule for underscores in numeric literals). -/
def okUnderscores : Option Char → List Char → Bool
  | _, [] => true
  | prev, '_' :: rest =>
    (match prev with | some d => d.isDigit | none => false) &&
    (match rest with | d :: _ => d.isDigit | _ => false) &&
    okUnderscores (some '_') rest
  | _, c :: rest => okUnderscores (some c) rest

def digitsToNat (cs : List Char) : Nat :=
  cs.foldl (fun a c => a * 10 + (c.toNat - 48)) 0

/-- Split a character list at the first occurrence of a separator
satisfying `p`; `none` if no such character occurs. -/
def splitFirst (p : Char → Bool) : List Char → Option (List Char × List Char)
  | [] => none
  | c :: rest =>
    if p c then some ([], rest)
    else match splitFirst p rest with
      | some (l, r) => some (c :: l, r)
      | none => none

/-- Mantissa `digits[.digits]` as an exact rational; `none` if malformed. -/
def parseMantissa (cs : List Char) : Option Rat :=
  match splitFirst (· == '.') cs with
  | some (ip, fp) =>
    if (ip ++ fp).all Char.isDigit && (ip ++ fp) ≠ [] then
      some ((digitsToNat (ip ++ fp) : Rat) / ((10 : Rat) ^ fp.length))
    else none
  | none =>
    if cs.all Char.isDigit && cs ≠ [] then some (digitsToNat cs : Rat) else none

def parseExponent (cs : List Char) : Option Int :=
  match cs with
  | '+' :: ds => if ds.all Char.isDigit && ds ≠ [] then some (digitsToNat ds) else none
  | '-' :: ds => if ds.all Char.isDigit && ds ≠ [] then some (-(digitsToNat ds : Int)) else none
  | ds => if ds.all Char.isDigit && ds ≠ [] then some (digitsToNat ds) else none

def applyExponent (q : Rat) (e : Int) : Rat :=
  if 0 ≤ e then q * (10 : Rat) ^ e.toNat else q / (10 : Rat) ^ (-e).toNat

/-- Sign-stripped body of a Python float literal: `inf`/`infinity`/`nan`
(case-insensitively) or a decimal mantissa with optional exponent. -/
def parseFloatBody (neg : Bool) (cs : List Char) : Option PyValue :=
  let low := (cs.map pyLowerChar).asString
  if low = "inf" || low = "infinity" then some (PyValue.inf neg)
  else if low = "nan" then some PyValue.nan
  else if !okUnderscores none cs then none
  else
    let ds := cs.filter (· != '_')
    match splitFirst (fun c => c == 'e' || c == 'E') ds with
    | some (mant, ex) => do
      let m ← parseMantissa mant
      let e ← parseExponent ex
      some (PyValue.float (applyExponent (if neg then -m else m) e))
    | none => do
      let m ← parseMantissa ds
      some (PyValue.float (if neg then -m else m))

/-- Python `float(s)` on a string: strips whitespace, then an optional
sign, then a float literal. ASCII-only, exact-rational model: non-ASCII
digits and binary rounding/overflow-to-infinity are outside the model. -/
def parsePyFloat (s : String) : Option PyValue :=
  match (pyStrip s).data with
  | [] => none
  | '+' :: rest => parseFloatBody false rest
  | '-' :: rest => parseFloatBody true rest
  | cs => parseFloatBody false cs

/-- Python `float(v)`: `none` models the ValueError/TypeError that the
source catches (bools and ints convert; None, lists and dicts raise). -/
def floatCoerce : PyValue → Option PyValue
  | .bool b => some (.float (if b then 1 else 0))
  | .int n => some (.float n)
  | .float q => some (.float q)
  | .inf b => some (.inf b)
  | .nan => some .nan
  | .str s => parsePyFloat s
  | _ => none

/-! ## Field validators (spec §4.2)

Splitting is done by structural recursion on character lists (with the
same semantics as `str.split` on these inputs) so that every validator
evaluates by kernel reduction. -/

/-- Split at every occurrence of one separator character
(`"a,b".split(",")`-style: `n` separators yield `n + 1` pieces). -/
def splitChar (sep : Char) : List Char → List (List Char)
  | [] => [[]]
  | c :: rest =>
    if c = sep then [] :: splitChar sep rest
    else match splitChar sep rest with
      | l :: ls => (c :: l) :: ls
      | [] => [[c]]

/-- Split at the first occurrence of `"::"`; `none` when there is none. -/
def splitColonColon : List Char → Option (List Char × List Char)
  | [] => none
  | [_] => none
  | c1 :: c2 :: rest =>
    if c1 = ':' && c2 = ':' then some ([], rest)
    else match splitColonColon (c2 :: rest) with
      | some (l, r) => some (c1 :: l, r)
      | none => none

def containsColonColon (cs : List Char) : Bool :=
  (splitColonColon cs).isSome

/-- One decimal octet as `ipaddress.IPv4Address` parses it: 1–3 ASCII
digits, no leading zero, value at most 255. -/
def isIPv4Octet (cs : List Char) : Bool :=
  !cs.isEmpty && cs.length ≤ 3 && cs.all Char.isDigit &&
    (cs.length == 1 || cs.headD '0' != '0') && digitsToNat cs ≤ 255

/-- Dotted-quad IPv4 textual form. -/
def ipv4OkL (cs : List Char) : Bool :=
  match splitChar '.' cs with
  | [a, b, c, d] => isIPv4Octet a && isIPv4Octet b && isIPv4Octet c && isIPv4Octet d
  | _ => false

def ipv4Ok (s : String) : Bool :=
  ipv4OkL s.data

def isHexChar (c : Char) : Bool :=
  c.isDigit || ('a' ≤ c && c ≤ 'f') || ('A' ≤ c && c ≤ 'F')

/-- One IPv6 hextet: 1–4 hex digits. -/
def isHextet (cs : List Char) : Bool :=
  !cs.isEmpty && cs.length ≤ 4 && cs.all isHexChar

/-- IPv6 groups with no `::` compression: 8 hextets, or 6 hextets with a
trailing embedded IPv4 address. -/
def ipv6Full (gs : List (List Char)) : Bool :=
  if gs.length == 8 then gs.all isHextet
  else if gs.length == 7 then
    gs.dropLast.all isHextet && (match gs.getLast? with
      | some last => ipv4OkL last
      | none => false)
  else false

/-- Group count of the suffix of a compressed address (an embedded IPv4
tail stands for two groups). -/
def ipv6TailCount (rg : List (List Char)) : Nat :=
  rg.length + (match rg.getLast? with
    | some last => if ipv4OkL last then 1 else 0
    | none => 0)

def ipv6TailOk (rg : List (List Char)) : Bool :=
  match rg.getLast? with
  | none => true
  | some last => rg.dropLast.all isHextet && (isHextet last || ipv4OkL last)

/-- IPv6 address body (no zone), as `ipaddress.IPv6Address` parses it:
at most one `::`, which must compress at least one group. -/
def ipv6Core (a : List Char) : Bool :=
  match splitColonColon a with
  | none => ipv6Full (splitChar ':' a)
  | some (l, r) =>
    if containsColonColon r then false
    else
      let lg := if l.isEmpty then [] else splitChar ':' l
      let rg := if r.isEmpty then [] else splitChar ':' r
      lg.all isHextet && ipv6TailOk rg && lg.length + ipv6TailCount rg ≤ 7

/-- IPv6 textual form with an optional non-empty `%zone` suffix. -/
def ipv6Ok (s : String) : Bool :=
  match splitChar '%' s.data with
  | [a] => ipv6Core a
  | [a, z] => !z.isEmpty && ipv6Core a
  | _ => false

/-- Models `ipaddress.ip_address(s)` succeeding on a string (the source
treats its ValueError as "invalid"). -/
def ip_address_ok (s : String) : Bool :=
  ipv4Ok s || ipv6Ok s

/-- Anchored body of `FBP_REGEX = re.compile(r'^fb\.1\.\d+\.\d+$')`:
`fb.1.<digits>.<digits>` with ASCII digits (Python `\d` also matches
other Unicode decimal digits, which are outside the model). -/
def fbpCoreL (cs : List Char) : Bool :=
  match splitChar '.' cs with
  | [a, b, c, d] =>
    a == ['f', 'b'] && b == ['1'] && !c.isEmpty && c.all Char.isDigit &&
      !d.isEmpty && d.all Char.isDigit
  | _ => false

/-- Models `FBP_REGEX.match(s)` succeeding: Python's `$` also matches just
before one trailing newline. -/
def fbpMatch (s : String) : Bool :=
  fbpCoreL s.data || (match s.data.getLast? with
    | some c => c == '\n' && fbpCoreL s.data.dropLast
    | none => false)

/-! ## The pipeline of src/main.py -/

/-- The exceptions the pipeline can raise: the 422 `HTTPException` carrying
the request id ("Currency is required when value is provided."), and the
uncaught Python TypeError/AttributeError a non-string value can cause. -/
inductive PipeError where
  | currencyRequired (requestId : String)
  | pyTypeError
  | pyAttributeError
deriving DecidableEq, Repr

/-- The pydantic `ClientPayload` model: `Optional` fields are `Option`,
the open `user_data`/`custom_data` dicts are association lists of
dynamically typed values. -/
structure ClientPayload where
  event_name : String
  event_time : Int
  event_source_url : Option String
  action_source : String
  user_data : List (String × PyValue)
  custom_data : Option (List (String × PyValue))
  test_event_code : Option String

/-- What `extract_client_info` returns: `{"ip": ..., "user_agent": ...}`.
The agent can be any payload value, hence `PyValue`. -/
structure ClientInfo where
  ip : String
  user_agent : PyValue

/-- Transport-level request material consumed by `extract_client_info`:
the `x-forwarded-for` header, `request.client.host`, and the `user-agent`
header. -/
structure TransportRequest where
  x_forwarded_for : Option String
  host : String
  user_agent_header : Option String

/-- Translation of `extract_client_info`: first comma-separated entry of a
truthy forwarded-for chain (trimmed) else the transport host; agent from
the payload if truthy else the agent header (default ""). -/
def extract_client_info (req : TransportRequest) (p : ClientPayload) : ClientInfo :=
  let client_ip := match req.x_forwarded_for with
    | some s => if s ≠ "" then pyStrip (String.mk ((splitChar ',' s.data).headD [])) else req.host
    | none => req.host
  let pua := pyGet p.user_data "user_agent" PyValue.pynone
  let client_user_agent := if pua.truthy then pua else PyValue.str (req.user_agent_header.getD "")
  ⟨client_ip, client_user_agent⟩

/-- Canonicalize-and-digest chain of `hash_data`'s non-empty branch:
`hashlib.sha256(value.strip().lower().encode()).hexdigest()`. -/
def hashStr (s : String) : String :=
  sha256hex (utf8Encode (pyLower (pyStrip s)))

/-- Translation of `hash_data`: "" for falsy input; the canonicalized
SHA-256 hex digest for a non-empty string; a truthy non-string raises
AttributeError at `.strip()` (bytes input, which also has `.strip`, is
outside the model — the payload is JSON and cannot carry bytes). -/
def hash_data (value : PyValue) : Except PipeError String :=
  if !value.truthy then .ok ""
  else match value with
    | .str s => .ok (hashStr s)
    | _ => .error .pyAttributeError

/-- The null-filter of `validate_and_clean_data`:
`v is not None and str(v).lower() != 'null'`. -/
def cleanKeep (v : PyValue) : Bool :=
  (match v with | .pynone => false | _ => true) && pyLower (pyStr v) != "null"

/-- The cleaned custom attributes: `payload.custom_data or {}`, filtered. -/
def clean_custom_data (cd : Option (List (String × PyValue))) : List (String × PyValue) :=
  (cd.getD []).filter (fun kv => cleanKeep kv.2)

/-- The `_fbp` validation step: a falsy value passes through; a truthy
string is emptied unless it matches `FBP_REGEX`; `re.match` on a truthy
non-string raises TypeError. -/
def fbpCheck (v : PyValue) : Except PipeError PyValue :=
  if !v.truthy then .ok v
  else match v with
    | .str s => .ok (if fbpMatch s then PyValue.str s else PyValue.str "")
    | _ => .error .pyTypeError

/-- The `value` coercion: `float(...)` with ValueError/TypeError caught
and replaced by `0.0`. -/
def coerceFloat (v : PyValue) : PyValue :=
  (floatCoerce v).getD (PyValue.float 0)

/-- What `validate_and_clean_data` returns on success. -/
structure ValidatedData where
  client_ip : String
  client_user_agent : PyValue
  fbp : PyValue
  fbc : PyValue
  custom_data : List (String × PyValue)

/-- Body of `validate_and_clean_data` after the `_fbp` step (the remaining
statements of the source function, with `fbp_val` already validated). -/
def validate_with_fbp (p : ClientPayload) (ci : ClientInfo) (rid : String) (fbp_val : PyValue) :
    Except PipeError ValidatedData :=
  let client_ip := if ci.ip != "" && !ip_address_ok ci.ip then "" else ci.ip
  let cleaned := clean_custom_data p.custom_data
  if alistContainsKey cleaned "value" then
    let cleaned2 := alistSet cleaned "value" (coerceFloat (pyGet cleaned "value" PyValue.pynone))
    if !(pyGet cleaned2 "currency" PyValue.pynone).truthy then
      .error (.currencyRequired rid)
    else
      .ok ⟨client_ip, ci.user_agent, fbp_val, pyGet p.user_data "fbc" (PyValue.str ""), cleaned2⟩
  else
    .ok ⟨client_ip, ci.user_agent, fbp_val, pyGet p.user_data "fbc" (PyValue.str ""), cleaned⟩

/-- Translation of `validate_and_clean_data`. The `try/except ValueError`
around `ipaddress.ip_address` becomes the conditional on `ip_address_ok`;
the `HTTPException(422, ...)` raise becomes `.error (.currencyRequired rid)`;
an uncaught TypeError from `FBP_REGEX.match` propagates. -/
def validate_and_clean_data (p : ClientPayload) (ci : ClientInfo) (rid : String) :
    Except PipeError ValidatedData :=
  match fbpCheck (pyGet p.user_data "fbp" (PyValue.str "")) with
  | .error e => .error e
  | .ok fbp_val => validate_with_fbp p ci rid fbp_val

/-- The fixed provider-key/source-field table of `hash_user_data`. -/
def fieldMap : List (String × String) :=
  [("em", "email"), ("fn", "first_name"), ("ln", "last_name"), ("ph", "phone"),
   ("country", "country"), ("ct", "city"), ("zp", "zip"), ("external_id", "external_id")]

def providerKeys : List String :=
  ["em", "fn", "ln", "ph", "country", "ct", "zp", "external_id"]

/-- The `pii_fields` dict of `hash_user_data`. -/
def piiFields (ud : List (String × PyValue)) : List (String × PyValue) :=
  [("em", pyGet ud "email" (PyValue.str "")),
   ("fn", pyGet ud "first_name" (PyValue.str "")),
   ("ln", pyGet ud "last_name" (PyValue.str "")),
   ("ph", pyGet ud "phone" (PyValue.str "")),
   ("country", pyGet ud "country" (PyValue.str "")),
   ("ct", pyGet ud "city" (PyValue.str "")),
   ("zp", pyGet ud "zip" (PyValue.str "")),
   ("external_id", pyGet ud "external_id" (PyValue.str ""))]

/-- Left-to-right evaluation of `{k: hash_data(v) for k, v in items}`:
the first exception propagates. -/
def hashEntries : List (String × PyValue) → Except PipeError (List (String × String))
  | [] => .ok []
  | (k, v) :: rest =>
    match hash_data v with
    | .error e => .error e
    | .ok d =>
      match hashEntries rest with
      | .error e => .error e
      | .ok tl => .ok ((k, d) :: tl)

/-- Translation of `hash_user_data`: the comprehension
`{k: hash_data(v) for k, v in pii_fields.items() if v}` (the request id is
used only for logging in the source). -/
def hash_user_data (ud : List (String × PyValue)) (rid : String) :
    Except PipeError (List (String × String)) :=
  hashEntries ((piiFields ud).filter (fun kv => kv.2.truthy))

/-- Python `x or None`. -/
def pyOrNone (v : PyValue) : PyValue :=
  if v.truthy then v else PyValue.pynone

/-- The None-filter of `build_meta_payload`: `v is not None`. -/
def pyNotNone (kv : String × PyValue) : Bool :=
  match kv.2 with
  | PyValue.pynone => false
  | _ => true

/-- Translation of `build_meta_payload`: the returned JSON document as an
association list (a key conditionally added in the source is conditionally
appended here). -/
def build_meta_payload (p : ClientPayload) (vd : ValidatedData)
    (hashed : List (String × String)) : List (String × PyValue) :=
  let user_data0 : List (String × PyValue) :=
    [("client_ip_address", pyOrNone (PyValue.str vd.client_ip)),
     ("client_user_agent", pyOrNone vd.client_user_agent),
     ("fbc", pyOrNone vd.fbc),
     ("fbp", pyOrNone vd.fbp)]
  let user_data1 := dictUpdate user_data0 (hashed.map (fun kd => (kd.1, PyValue.str kd.2)))
  let user_data2 := user_data1.filter pyNotNone
  let event_data : List (String × PyValue) :=
    [("event_name", PyValue.str p.event_name),
     ("event_time", PyValue.int p.event_time),
     ("action_source", PyValue.str p.action_source),
     ("user_data", PyValue.dict user_data2),
     ("custom_data", PyValue.dict vd.custom_data)]
  let event_data2 := match p.event_source_url with
    | some u => if u ≠ "" then event_data ++ [("event_source_url", PyValue.str u)] else event_data
    | none => event_data
  let meta := [("data", PyValue.list [PyValue.dict event_data2])]
  match p.test_event_code with
  | some c => if c ≠ "" then meta ++ [("test_event_code", PyValue.str c)] else meta
  | none => meta

/-- The pipeline stages of `process_event` (step 5, the outbound network
call, is an external collaborator outside the core). -/
inductive Stage where
  | extract
  | sanitize
  | hashStage
  | assemble
deriving DecidableEq, Repr

/-- Translation of `process_event` steps 1–4, recording which stages ran;
an exception aborts the remaining stages and surfaces to the caller (the
`except` clause in the source catches only `requests` errors from step 5;
the request id, a uuid in the source, is a parameter here). -/
def process_event (p : ClientPayload) (req : TransportRequest) (rid : String) :
    Except PipeError (List (String × PyValue)) × List Stage :=
  let ci := extract_client_info req p
  match validate_and_clean_data p ci rid with
  | .error e => (.error e, [Stage.extract, Stage.sanitize])
  | .ok vd =>
    match hash_user_data p.user_data rid with
    | .error e => (.error e, [Stage.extract, Stage.sanitize, Stage.hashStage])
    | .ok hp =>
      (.ok (build_meta_payload p vd hp),
       [Stage.extract, Stage.sanitize, Stage.hashStage, Stage.assemble])

/-! ## Observers and helper lemmas -/

/-- A 64-character string of lowercase hexadecimal digits. -/
def isHex64 (s : String) : Bool :=
  s.length == 64 && s.data.all (fun c => hexDigits.contains c)

/-- Every user-identity value is a string (the type the source's
annotations assume for PII fields). -/
def allStrValues (ud : List (String × PyValue)) : Bool :=
  ud.all fun kv => kv.2.isStr

/-- The source-field value `hash_user_data` reads: `user_data.get(k, "")`,
as a string. -/
def sGet (ud : List (String × PyValue)) (k : String) : String :=
  (pyGet ud k (PyValue.str "")).asStr

/-- Closed form of a successful `hash_user_data`: the truthy entries of
`pii_fields`, each value replaced by its canonicalized digest. -/
def hashedExpected (ud : List (String × PyValue)) : List (String × String) :=
  ((piiFields ud).filter fun kv => kv.2.truthy).map fun kv => (kv.1, hashStr kv.2.asStr)

theorem hexNib_mod_mem (m : Nat) : hexNib (m % 16) ∈ hexDigits := by
  have h : m % 16 < 16 := Nat.mod_lt m (by norm_num)
  revert h
  generalize m % 16 = k
  intro h
  interval_cases k <;> decide

theorem sha256hex_isHex64 (msg : List Nat) : isHex64 (sha256hex msg) = true := by
  simp [sha256hex, sha256, isHex64, String.length, wordBytes, byteHexChars,
    hexNib_mod_mem]

theorem sha256hex_ne_empty (msg : List Nat) : sha256hex msg ≠ "" := by
  intro h
  have h64 := sha256hex_isHex64 msg
  rw [h] at h64
  simp [isHex64] at h64

theorem alistLookup_eq_some_mem {α : Type} {l : List (String × α)} {k : String} {v : α}
    (h : alistLookup l k = some v) : (k, v) ∈ l := by
  induction l with
  | nil => simp [alistLookup] at h
  | cons hd tl ih =>
    obtain ⟨k', v'⟩ := hd
    by_cases hk : k' = k
    · subst hk
      simp [alistLookup] at h
      subst h
      exact List.mem_cons_self _ _
    · simp [alistLookup, hk] at h
      exact List.mem_cons_of_mem _ (ih h)

theorem alistLookup_none_of_not_mem {α : Type} {l : List (String × α)} {k : String}
    (h : k ∉ l.map Prod.fst) : alistLookup l k = none := by
  induction l with
  | nil => rfl
  | cons hd tl ih =>
    obtain ⟨k', v'⟩ := hd
    simp only [List.map_cons, List.mem_cons, not_or] at h
    have hne : k' ≠ k := fun hh => h.1 hh.symm
    simp [alistLookup, hne, ih h.2]

theorem alistLookup_append {α : Type} (A B : List (String × α)) (k : String) :
    alistLookup (A ++ B) k = (alistLookup A k).or (alistLookup B k) := by
  induction A with
  | nil => simp [alistLookup]
  | cons hd tl ih =>
    obtain ⟨k', v'⟩ := hd
    by_cases hk : k' = k
    · simp [alistLookup, hk]
    · simp [alistLookup, hk, ih]

theorem alistLookup_alistSet_self {α : Type} (l : List (String × α)) (k : String) (v : α) :
    alistLookup (alistSet l k v) k = some v := by
  induction l with
  | nil => simp [alistSet, alistLookup]
  | cons hd tl ih =>
    obtain ⟨k', v'⟩ := hd
    by_cases hk : k' = k
    · simp [alistSet, alistLookup, hk]
    · simp [alistSet, alistLookup, hk, ih]

theorem alistLookup_alistSet_ne {α : Type} (l : List (String × α)) (k k' : String) (v : α)
    (h : k ≠ k') : alistLookup (alistSet l k v) k' = alistLookup l k' := by
  induction l with
  | nil => simp [alistSet, alistLookup, h]
  | cons hd tl ih =>
    obtain ⟨k0, v0⟩ := hd
    by_cases hk : k0 = k
    · subst hk
      simp [alistSet, alistLookup, h]
    · simp [alistSet, alistLookup, hk, ih]

theorem alistSet_absent {α : Type} (l : List (String × α)) (k : String) (v : α)
    (h : alistLookup l k = none) : alistSet l k v = l ++ [(k, v)] := by
  induction l with
  | nil => simp [alistSet]
  | cons hd tl ih =>
    obtain ⟨k', v'⟩ := hd
    by_cases hk : k' = k
    · simp [alistLookup, hk] at h
    · simp [alistLookup, hk] at h
      simp [alistSet, hk, ih h]

theorem alistLookup_filter {α : Type} {l : List (String × α)} {p : String × α → Bool}
    {k : String} {v : α} (h : alistLookup l k = some v) (hp : p (k, v) = true) :
    alistLookup (l.filter p) k = some v := by
  induction l with
  | nil => simp [alistLookup] at h
  | cons hd tl ih =>
    obtain ⟨k', v'⟩ := hd
    by_cases hk : k' = k
    · subst hk
      simp [alistLookup] at h
      subst h
      simp [List.filter, hp, alistLookup]
    · simp [alistLookup, hk] at h
      by_cases hph : p (k', v') = true
      · simp [List.filter, hph, alistLookup, hk, ih h]
      · simp at hph
        simp [List.filter, hph, ih h]

theorem alistLookup_filter_none {α : Type} {l : List (String × α)} {p : String × α → Bool}
    {k : String} (h : ∀ v, (k, v) ∈ l → p (k, v) = false) :
    alistLookup (l.filter p) k = none := by
  induction l with
  | nil => rfl
  | cons hd tl ih =>
    obtain ⟨k', v'⟩ := hd
    have ihh := ih (fun v hv => h v (List.mem_cons_of_mem _ hv))
    by_cases hk : k' = k
    · subst hk
      have := h v' (List.mem_cons_self _ _)
      simp [List.filter, this, ihh]
    · by_cases hph : p (k', v') = true
      · simp [List.filter, hph, alistLookup, hk, ihh]
      · simp at hph
        simp [List.filter, hph, ihh]

theorem alist_lookup_of_mem_nodup {α : Type} {l : List (String × α)}
    (hnd : (l.map Prod.fst).Nodup) {k : String} {v : α} (h : (k, v) ∈ l) :
    alistLookup l k = some v := by
  induction l with
  | nil => simp at h
  | cons hd tl ih =>
    obtain ⟨k', v'⟩ := hd
    rw [List.map_cons, List.nodup_cons] at hnd
    rcases List.mem_cons.mp h with heq | hmem
    · injection heq with h1 h2
      subst h1
      subst h2
      simp [alistLookup]
    · have hne : k' ≠ k := by
        intro hk
        subst hk
        exact hnd.1 (List.mem_map.mpr ⟨(k', v), hmem, rfl⟩)
      simp [alistLookup, hne, ih hnd.2 hmem]

theorem procKeys_sublist {α β : Type} (l : List (String × α)) (p : α → Bool) (f : α → β) :
    (((l.filter fun kv => p kv.2).map fun kv => (kv.1, f kv.2)).map Prod.fst).Sublist
      (l.map Prod.fst) := by
  rw [List.map_map]
  have hc : (Prod.fst ∘ fun kv : String × α => (kv.1, f kv.2)) = Prod.fst := rfl
  rw [hc]
  exact (List.filter_sublist l).map Prod.fst

theorem alistLookup_filter_map {α β : Type} {l : List (String × α)} (p : α → Bool) (f : α → β)
    (hnd : (l.map Prod.fst).Nodup) {k : String} {v : α} (h : (k, v) ∈ l) :
    alistLookup ((l.filter fun kv => p kv.2).map fun kv => (kv.1, f kv.2)) k =
      if p v then some (f v) else none := by
  induction l with
  | nil => simp at h
  | cons hd tl ih =>
    obtain ⟨k', v'⟩ := hd
    rw [List.map_cons, List.nodup_cons] at hnd
    rcases List.mem_cons.mp h with heq | hmem
    · injection heq with h1 h2
      subst h1
      subst h2
      have hnone : alistLookup ((tl.filter fun kv => p kv.2).map fun kv => (kv.1, f kv.2)) k = none := by
        apply alistLookup_none_of_not_mem
        intro hk
        exact hnd.1 ((procKeys_sublist tl p f).subset hk)
      by_cases hp : p v = true
      · simp [List.filter_cons, hp, alistLookup]
      · simp at hp
        simp [List.filter_cons, hp, hnone]
    · have hne : k' ≠ k := by
        intro hk
        subst hk
        exact hnd.1 (List.mem_map.mpr ⟨(k', v), hmem, rfl⟩)
      by_cases hp' : p v' = true
      · simp [List.filter_cons, hp', alistLookup, hne, ih hnd.2 hmem]
      · simp at hp'
        simp [List.filter_cons, hp', ih hnd.2 hmem]

theorem dictUpdate_disjoint {α : Type} (upd : List (String × α)) :
    ∀ d : List (String × α), (∀ kv ∈ upd, alistLookup d kv.1 = none) →
      (upd.map Prod.fst).Nodup → dictUpdate d upd = d ++ upd := by
  induction upd with
  | nil =>
    intro d _ _
    simp [dictUpdate]
  | cons hd tl ih =>
    intro d hnone hnd
    obtain ⟨k, v⟩ := hd
    rw [List.map_cons, List.nodup_cons] at hnd
    have h1 : alistLookup d k = none := hnone (k, v) (List.mem_cons_self _ _)
    have hstep : dictUpdate d ((k, v) :: tl) = dictUpdate (alistSet d k v) tl := rfl
    rw [hstep, alistSet_absent d k v h1]
    have hnone2 : ∀ kv ∈ tl, alistLookup (d ++ [(k, v)]) kv.1 = none := by
      intro kv hkv
      rw [alistLookup_append]
      have hkne : k ≠ kv.1 := by
        intro hk
        exact hnd.1 (hk ▸ List.mem_map.mpr ⟨kv, hkv, rfl⟩)
      simp [hnone kv (List.mem_cons_of_mem _ hkv), alistLookup, hkne]
    rw [ih (d ++ [(k, v)]) hnone2 hnd.2]
    simp

theorem hash_data_str {s : String} (h : s ≠ "") :
    hash_data (PyValue.str s) = .ok (hashStr s) := by
  simp [hash_data, PyValue.truthy, h]

theorem hash_data_ok_truthy {v : PyValue} {d : String} (ht : v.truthy = true)
    (h : hash_data v = .ok d) : ∃ s : String, v = PyValue.str s ∧ s ≠ "" ∧ d = hashStr s := by
  cases v with
  | str s =>
    have hs : s ≠ "" := by simpa [PyValue.truthy] using ht
    rw [hash_data_str hs] at h
    injection h with hd
    exact ⟨s, rfl, hs, hd.symm⟩
  | pynone => simp [PyValue.truthy] at ht
  | bool b => simp [hash_data, ht] at h
  | int n => simp [hash_data, ht] at h
  | float q => simp [hash_data, ht] at h
  | inf b => simp [hash_data, ht] at h
  | nan => simp [hash_data, ht] at h
  | list xs => simp [hash_data, ht] at h
  | dict kvs => simp [hash_data, ht] at h

theorem hashEntries_ok_of_str : ∀ l : List (String × PyValue),
    (∀ kv ∈ l, ∃ s : String, kv.2 = PyValue.str s ∧ s ≠ "") →
    hashEntries l = .ok (l.map fun kv => (kv.1, hashStr kv.2.asStr)) := by
  intro l
  induction l with
  | nil => intro _; rfl
  | cons hd tl ih =>
    intro h
    obtain ⟨k, v⟩ := hd
    obtain ⟨s, hs, hne⟩ := h (k, v) (List.mem_cons_self _ _)
    simp only at hs
    subst hs
    simp [hashEntries, hash_data_str hne, ih (fun kv hkv => h kv (List.mem_cons_of_mem _ hkv)),
      PyValue.asStr]

theorem hashEntries_ok_keys : ∀ {l : List (String × PyValue)} {out : List (String × String)},
    hashEntries l = .ok out → out.map Prod.fst = l.map Prod.fst := by
  intro l
  induction l with
  | nil =>
    intro out h
    simp [hashEntries] at h
    subst h
    rfl
  | cons hd tl ih =>
    intro out h
    obtain ⟨k, v⟩ := hd
    rw [hashEntries] at h
    cases hv : hash_data v with
    | error e => rw [hv] at h; exact absurd h (by simp)
    | ok d =>
      rw [hv] at h
      cases htl : hashEntries tl with
      | error e => rw [htl] at h; exact absurd h (by simp)
      | ok tl2 =>
        rw [htl] at h
        injection h with h2
        subst h2
        simp [ih htl]

theorem hashEntries_ok_mem : ∀ {l : List (String × PyValue)} {out : List (String × String)},
    hashEntries l = .ok out → ∀ kd ∈ out, ∃ v, (kd.1, v) ∈ l ∧ hash_data v = .ok kd.2 := by
  intro l
  induction l with
  | nil =>
    intro out h
    simp [hashEntries] at h
    subst h
    simp
  | cons hd tl ih =>
    intro out h kd hkd
    obtain ⟨k, v⟩ := hd
    rw [hashEntries] at h
    cases hv : hash_data v with
    | error e => rw [hv] at h; exact absurd h (by simp)
    | ok d =>
      rw [hv] at h
      cases htl : hashEntries tl with
      | error e => rw [htl] at h; exact absurd h (by simp)
      | ok tl2 =>
        rw [htl] at h
        injection h with h2
        subst h2
        rcases List.mem_cons.mp hkd with heq | hmem
        · subst heq
          exact ⟨v, List.mem_cons_self _ _, hv⟩
        · obtain ⟨w, hw1, hw2⟩ := ih htl kd hmem
          exact ⟨w, List.mem_cons_of_mem _ hw1, hw2⟩

theorem pyGet_str_of_allStr {ud : List (String × PyValue)} (h : allStrValues ud = true)
    (k : String) : pyGet ud k (PyValue.str "") = PyValue.str (sGet ud k) := by
  unfold sGet pyGet
  cases hl : alistLookup ud k with
  | none => rfl
  | some v =>
    have hmem := alistLookup_eq_some_mem hl
    have hstr : v.isStr = true := List.all_eq_true.mp h (k, v) hmem
    cases v <;> simp [PyValue.isStr] at hstr ⊢
    rfl

theorem piiFields_eq (ud : List (String × PyValue)) :
    piiFields ud = fieldMap.map (fun pr => (pr.1, pyGet ud pr.2 (PyValue.str ""))) := rfl

theorem piiFields_keys (ud : List (String × PyValue)) :
    (piiFields ud).map Prod.fst = providerKeys := rfl

theorem hash_user_data_str {ud : List (String × PyValue)} (h : allStrValues ud = true)
    (rid : String) : hash_user_data ud rid = .ok (hashedExpected ud) := by
  unfold hash_user_data hashedExpected
  apply hashEntries_ok_of_str
  intro kv hkv
  obtain ⟨hmem, htr⟩ := List.mem_filter.mp hkv
  rw [piiFields_eq] at hmem
  obtain ⟨pr, hpr, hkveq⟩ := List.mem_map.mp hmem
  subst hkveq
  refine ⟨sGet ud pr.2, ?_, ?_⟩
  · exact pyGet_str_of_allStr h pr.2
  · intro hembed
    rw [pyGet_str_of_allStr h pr.2] at htr
    simp [PyValue.truthy, hembed] at htr

theorem isStr_exists {v : PyValue} (h : v.isStr = true) : ∃ s : String, v = PyValue.str s := by
  cases v <;> simp [PyValue.isStr] at h ⊢

theorem fbpCheck_str (s : String) :
    fbpCheck (PyValue.str s) = .ok (PyValue.str (if s != "" && !fbpMatch s then "" else s)) := by
  by_cases hs : s = ""
  · subst hs
    rfl
  · have ht : (PyValue.str s).truthy = true := by simp [PyValue.truthy, hs]
    by_cases hm : fbpMatch s = true
    · simp [fbpCheck, ht, hm]
    · simp at hm
      simp [fbpCheck, ht, hm, hs]

theorem validate_via_fbp {p : ClientPayload} {ci : ClientInfo} {rid : String} {s : String}
    (hs : pyGet p.user_data "fbp" (PyValue.str "") = PyValue.str s) :
    validate_and_clean_data p ci rid =
      validate_with_fbp p ci rid (PyValue.str (if s != "" && !fbpMatch s then "" else s)) := by
  unfold validate_and_clean_data
  rw [hs, fbpCheck_str]

theorem utf8EncodeChar_ne_nil (c : Char) : utf8EncodeChar c ≠ [] := by
  unfold utf8EncodeChar
  split_ifs <;> simp

theorem utf8Encode_ne_nil {t : String} (h : t ≠ "") : utf8Encode t ≠ [] := by
  obtain ⟨cs⟩ := t
  cases cs with
  | nil => exact absurd rfl h
  | cons c rest =>
    show (String.data ⟨c :: rest⟩).flatMap utf8EncodeChar ≠ []
    simp [List.flatMap_cons, utf8EncodeChar_ne_nil c]

theorem pyLower_ne_empty {t : String} (h : t ≠ "") : pyLower t ≠ "" := by
  obtain ⟨cs⟩ := t
  cases cs with
  | nil => exact absurd rfl h
  | cons c rest =>
    intro hx
    have hdata := congrArg String.data hx
    simp [pyLower] at hdata

/-! ## Claim theorems -/

/-- C1: for every (string-valued, as the PII contract types them)
user-identity mapping, `hash_user_data` succeeds and its output has an
entry under a provider key exactly when the corresponding source field is
present with a non-empty value; that entry is the canonicalizing SHA-256
digest of the source value; and every entry is a provider-keyed 64-char
lowercase hex digest — no raw PII value. -/
theorem hash_user_data_provider_mapping (ud : List (String × PyValue)) (rid : String)
    (h : allStrValues ud = true) :
    hash_user_data ud rid = .ok (hashedExpected ud) ∧
    (∀ pk hk : String, (pk, hk) ∈ fieldMap →
      alistLookup (hashedExpected ud) pk =
        (if sGet ud hk ≠ "" then some (hashStr (sGet ud hk)) else none)) ∧
    (∀ kd ∈ hashedExpected ud, kd.1 ∈ providerKeys ∧ isHex64 kd.2 = true) := by
  refine ⟨hash_user_data_str h rid, ?_, ?_⟩
  · intro pk hk hmem
    have hm2 : (pk, PyValue.str (sGet ud hk)) ∈ piiFields ud := by
      rw [piiFields_eq]
      have hmm : (pk, pyGet ud hk (PyValue.str "")) ∈
          fieldMap.map (fun pr : String × String => (pr.1, pyGet ud pr.2 (PyValue.str ""))) :=
        List.mem_map.mpr ⟨(pk, hk), hmem, rfl⟩
      rwa [pyGet_str_of_allStr h hk] at hmm
    have hnd : ((piiFields ud).map Prod.fst).Nodup := by
      rw [piiFields_keys]
      decide
    have hlook := alistLookup_filter_map (fun v : PyValue => v.truthy)
      (fun v : PyValue => hashStr v.asStr) hnd hm2
    unfold hashedExpected
    rw [hlook]
    by_cases hs : sGet ud hk = ""
    · simp [hs, PyValue.truthy]
    · simp [hs, PyValue.truthy, PyValue.asStr]
  · intro kd hkd
    unfold hashedExpected at hkd
    obtain ⟨kv, hkv, hkdeq⟩ := List.mem_map.mp hkd
    subst hkdeq
    obtain ⟨hmem, htr⟩ := List.mem_filter.mp hkv
    constructor
    · have hkeys : kv.1 ∈ (piiFields ud).map Prod.fst := List.mem_map.mpr ⟨kv, hmem, rfl⟩
      rwa [piiFields_keys] at hkeys
    · exact sha256hex_isHex64 _

/-- Witness for C1 at a concrete mapping (one non-empty and one empty
field). -/
theorem hash_user_data_provider_mapping_witness :
    allStrValues [("email", PyValue.str "A@B.com"), ("city", PyValue.str "")] = true ∧
    hash_user_data [("email", PyValue.str "A@B.com"), ("city", PyValue.str "")] "req-1" =
      .ok (hashedExpected [("email", PyValue.str "A@B.com"), ("city", PyValue.str "")]) :=
  ⟨by decide,
    (hash_user_data_provider_mapping
      [("email", PyValue.str "A@B.com"), ("city", PyValue.str "")] "req-1" (by decide)).1⟩

/-- C2: `hash_data` maps empty/absent input to "" without raising, and a
non-empty string to the lowercase hex SHA-256 digest of the UTF-8 encoding
of its trimmed, lowercased form; in particular
hash(" Foo@Bar.com ") = hash("foo@bar.com"). -/
theorem hash_data_canonical_sha256 :
    hash_data (PyValue.str "") = .ok "" ∧
    hash_data PyValue.pynone = .ok "" ∧
    (∀ s : String, s ≠ "" →
      hash_data (PyValue.str s) = .ok (sha256hex (utf8Encode (pyLower (pyStrip s)))) ∧
      isHex64 (sha256hex (utf8Encode (pyLower (pyStrip s)))) = true) ∧
    hash_data (PyValue.str " Foo@Bar.com ") = hash_data (PyValue.str "foo@bar.com") := by
  refine ⟨rfl, rfl, fun s hs => ⟨hash_data_str hs, sha256hex_isHex64 _⟩, ?_⟩
  rfl

/-- Witness for C2's quantified clause at a concrete non-empty string. -/
theorem hash_data_canonical_sha256_witness :
    hash_data (PyValue.str "x@y.com") =
      .ok (sha256hex (utf8Encode (pyLower (pyStrip "x@y.com")))) ∧
    isHex64 (sha256hex (utf8Encode (pyLower (pyStrip "x@y.com")))) = true :=
  hash_data_canonical_sha256.2.2.1 "x@y.com" (by decide)

/-- C7 counterexample: a whitespace-only email is truthy, so it is kept,
and its canonicalization is empty — the SHA-256 hex digest of the empty
string is exactly what gets transmitted under `em`. -/
theorem empty_digest_from_whitespace_email :
    (PyValue.str "   ").truthy = true ∧
    hash_user_data [("email", PyValue.str "   ")] "req-7" =
      .ok [("em", sha256hex (utf8Encode ""))] := ⟨rfl, rfl⟩

/-- C7 (amended): provided every present source string is empty or has a
non-empty trimmed form, every transmitted value is the digest of a
non-empty canonicalized source value (so no digest of the empty string);
a whitespace-only source value, however, does transmit the digest of the
empty string (see the counterexample). -/
theorem hashed_values_are_nonempty_digests (ud : List (String × PyValue)) (rid : String)
    (h1 : allStrValues ud = true)
    (h2 : ud.all (fun kv => match kv.2 with
      | PyValue.str s => (s == "") || (pyStrip s != "")
      | _ => true) = true)
    (out : List (String × String)) (hout : hash_user_data ud rid = .ok out) :
    ∀ kd ∈ out, ∃ s : String, s ≠ "" ∧ pyStrip s ≠ "" ∧
      kd.2 = sha256hex (utf8Encode (pyLower (pyStrip s))) ∧
      utf8Encode (pyLower (pyStrip s)) ≠ [] := by
  rw [hash_user_data_str h1 rid] at hout
  injection hout with hout2
  subst hout2
  intro kd hkd
  unfold hashedExpected at hkd
  obtain ⟨kv, hkv, hkdeq⟩ := List.mem_map.mp hkd
  subst hkdeq
  obtain ⟨hmem, htr⟩ := List.mem_filter.mp hkv
  rw [piiFields_eq] at hmem
  obtain ⟨pr, hpr, hkveq⟩ := List.mem_map.mp hmem
  have hv : kv.2 = PyValue.str (sGet ud pr.2) := by
    rw [← hkveq, pyGet_str_of_allStr h1 pr.2]
  have hsne : sGet ud pr.2 ≠ "" := by
    intro hemb
    rw [hv] at htr
    simp [PyValue.truthy, hemb] at htr
  have hstrip : pyStrip (sGet ud pr.2) ≠ "" := by
    unfold sGet pyGet at hsne ⊢
    cases hl : alistLookup ud pr.2 with
    | none => rw [hl] at hsne; simp [PyValue.asStr] at hsne
    | some w =>
      rw [hl] at hsne
      have hwmem := alistLookup_eq_some_mem hl
      have hw := List.all_eq_true.mp h2 (pr.2, w) hwmem
      cases w with
      | str s =>
        simp [PyValue.asStr] at hsne ⊢
        simp [hsne] at hw
        exact hw
      | pynone => simp [PyValue.asStr] at hsne
      | bool b => simp [PyValue.asStr] at hsne
      | int n => simp [PyValue.asStr] at hsne
      | float q => simp [PyValue.asStr] at hsne
      | inf b => simp [PyValue.asStr] at hsne
      | nan => simp [PyValue.asStr] at hsne
      | list xs => simp [PyValue.asStr] at hsne
      | dict kvs => simp [PyValue.asStr] at hsne
  refine ⟨sGet ud pr.2, hsne, hstrip, ?_, ?_⟩
  · rw [hv]
    rfl
  · exact utf8Encode_ne_nil (pyLower_ne_empty hstrip)

/-- Witness for C7 (amended) at a concrete mapping. -/
theorem hashed_values_are_nonempty_digests_witness :
    allStrValues [("email", PyValue.str "A@B.com")] = true ∧
    (∀ kd ∈ [("em", hashStr "A@B.com")], ∃ s : String, s ≠ "" ∧ pyStrip s ≠ "" ∧
      kd.2 = sha256hex (utf8Encode (pyLower (pyStrip s))) ∧
      utf8Encode (pyLower (pyStrip s)) ≠ []) :=
  ⟨by decide,
    hashed_values_are_nonempty_digests [("email", PyValue.str "A@B.com")] "req-7b"
      (by decide) (by decide) [("em", hashStr "A@B.com")] rfl⟩

/-- C8 counterexample: a truthy non-string identity value (an int) makes
`hash_data` call `.strip()` on an int — an uncaught AttributeError, so
`hash_user_data` does not "always succeed whatever the types". -/
theorem hash_user_data_raises_on_int :
    hash_user_data [("email", PyValue.int 123)] "req-8" = .error .pyAttributeError := rfl

/-- C8 (amended): on string-valued identity mappings (the PII contract's
types) `hash_user_data` always succeeds. -/
theorem hash_user_data_total_on_strings (ud : List (String × PyValue)) (rid : String)
    (h : allStrValues ud = true) :
    hash_user_data ud rid = .ok (hashedExpected ud) :=
  hash_user_data_str h rid

/-- Witness for C8 (amended) at a concrete mapping. -/
theorem hash_user_data_total_on_strings_witness :
    allStrValues [("email", PyValue.str "a@b.com"), ("phone", PyValue.str "+123")] = true ∧
    hash_user_data [("email", PyValue.str "a@b.com"), ("phone", PyValue.str "+123")] "req-8b" =
      .ok (hashedExpected [("email", PyValue.str "a@b.com"), ("phone", PyValue.str "+123")]) :=
  ⟨by decide,
    hash_user_data_total_on_strings
      [("email", PyValue.str "a@b.com"), ("phone", PyValue.str "+123")] "req-8b" (by decide)⟩

theorem validate_with_fbp_ok_fields {p : ClientPayload} {ci : ClientInfo} {rid : String}
    {fbp_val : PyValue} {vd : ValidatedData}
    (h : validate_with_fbp p ci rid fbp_val = .ok vd) :
    vd.client_ip = (if ci.ip != "" && !ip_address_ok ci.ip then "" else ci.ip) ∧
    vd.client_user_agent = ci.user_agent ∧
    vd.fbp = fbp_val ∧
    vd.fbc = pyGet p.user_data "fbc" (PyValue.str "") := by
  simp only [validate_with_fbp] at h
  split at h
  · split at h
    · exact absurd h (by simp)
    · injection h with hvd
      subst hvd
      exact ⟨rfl, rfl, rfl, rfl⟩
  · injection h with hvd
    subst hvd
    exact ⟨rfl, rfl, rfl, rfl⟩

theorem validate_with_fbp_error {p : ClientPayload} {ci : ClientInfo} {rid : String}
    {fbp_val : PyValue} {e : PipeError}
    (h : validate_with_fbp p ci rid fbp_val = .error e) : e = .currencyRequired rid := by
  simp only [validate_with_fbp] at h
  split at h
  · split at h
    · injection h with he
      exact he.symm
    · exact absurd h (by simp)
  · exact absurd h (by simp)

/-- C3 counterexample: `{"value": None}` contains a `value` key and no
`currency` key, yet sanitization succeeds (the null-filter drops the
entry before the currency check). -/
theorem currency_check_skips_null_value :
    alistContainsKey [("value", PyValue.pynone)] "value" = true ∧
    alistContainsKey [("value", PyValue.pynone)] "currency" = false ∧
    validate_and_clean_data
      ⟨"Purchase", 0, none, "website", [], some [("value", PyValue.pynone)], none⟩
      ⟨"", PyValue.str ""⟩ "req-3" =
      .ok ⟨"", PyValue.str "", PyValue.str "", PyValue.str "", []⟩ := ⟨rfl, rfl, rfl⟩

/-- C3 (amended): with a string (or absent) `fbp`, sanitization fails —
necessarily with `CurrencyRequired` carrying the caller's correlation id —
exactly when the null-filtered custom attributes contain a `value` entry
without a truthy `currency` entry. -/
theorem currency_required_iff_cleaned (p : ClientPayload) (ci : ClientInfo) (rid : String)
    (hfbp : (pyGet p.user_data "fbp" (PyValue.str "")).isStr = true) :
    validate_and_clean_data p ci rid = .error (.currencyRequired rid) ↔
      (alistContainsKey (clean_custom_data p.custom_data) "value" = true ∧
       (pyGet (clean_custom_data p.custom_data) "currency" PyValue.pynone).truthy = false) := by
  obtain ⟨s, hs⟩ := isStr_exists hfbp
  rw [validate_via_fbp hs]
  have hcur2 : pyGet (alistSet (clean_custom_data p.custom_data) "value"
      (coerceFloat (pyGet (clean_custom_data p.custom_data) "value" PyValue.pynone)))
      "currency" PyValue.pynone =
      pyGet (clean_custom_data p.custom_data) "currency" PyValue.pynone := by
    unfold pyGet
    rw [alistLookup_alistSet_ne _ _ _ _ (by decide)]
  unfold validate_with_fbp
  by_cases hcv : alistContainsKey (clean_custom_data p.custom_data) "value"
  · by_cases hct : (pyGet (clean_custom_data p.custom_data) "currency" PyValue.pynone).truthy
    · simp [hcv, hcur2, hct]
    · simp only [Bool.not_eq_true] at hct
      simp [hcv, hcur2, hct]
  · simp only [Bool.not_eq_true] at hcv
    simp [hcv]

/-- Witness for C3 (amended) at a concrete payload holding a priced value
and no currency. -/
theorem currency_required_iff_cleaned_witness :
    (pyGet ([] : List (String × PyValue)) "fbp" (PyValue.str "")).isStr = true ∧
    (validate_and_clean_data
        ⟨"Purchase", 0, none, "website", [], some [("value", PyValue.int 5)], none⟩
        ⟨"", PyValue.str ""⟩ "req-3b" = .error (.currencyRequired "req-3b") ↔
      (alistContainsKey (clean_custom_data (some [("value", PyValue.int 5)])) "value" = true ∧
       (pyGet (clean_custom_data (some [("value", PyValue.int 5)])) "currency"
          PyValue.pynone).truthy = false)) :=
  ⟨rfl, currency_required_iff_cleaned
    ⟨"Purchase", 0, none, "website", [], some [("value", PyValue.int 5)], none⟩
    ⟨"", PyValue.str ""⟩ "req-3b" rfl⟩

/-- C9 counterexample: value `"null"` is non-numeric and currency `"USD"`
is non-empty, but the null-filter drops the value entry, so the cleaned
attributes contain no `value` at all (rather than `value == 0.0`). -/
theorem null_string_value_dropped_not_zeroed :
    floatCoerce (PyValue.str "null") = none ∧
    validate_and_clean_data
      ⟨"Purchase", 0, none, "website", [],
        some [("value", PyValue.str "null"), ("currency", PyValue.str "USD")], none⟩
      ⟨"", PyValue.str ""⟩ "req-9" =
      .ok ⟨"", PyValue.str "", PyValue.str "", PyValue.str "",
        [("currency", PyValue.str "USD")]⟩ ∧
    alistLookup [("currency", PyValue.str "USD")] "value" = none := ⟨rfl, rfl, rfl⟩

/-- C9 (amended): a custom-attributes `value` entry that survives the
null-filter and fails float coercion, together with a surviving truthy
`currency`, sanitizes successfully with cleaned `value == 0.0`. -/
theorem bad_value_coerced_to_zero (p : ClientPayload) (ci : ClientInfo) (rid : String)
    (v c : PyValue)
    (hfbp : (pyGet p.user_data "fbp" (PyValue.str "")).isStr = true)
    (hv : alistLookup (p.custom_data.getD []) "value" = some v)
    (hkeep : cleanKeep v = true)
    (hcoerce : floatCoerce v = none)
    (hc : alistLookup (clean_custom_data p.custom_data) "currency" = some c)
    (hct : c.truthy = true) :
    ∃ vd : ValidatedData, validate_and_clean_data p ci rid = .ok vd ∧
      alistLookup vd.custom_data "value" = some (PyValue.float 0) := by
  obtain ⟨s, hs⟩ := isStr_exists hfbp
  rw [validate_via_fbp hs]
  have hvc : alistLookup (clean_custom_data p.custom_data) "value" = some v :=
    alistLookup_filter hv hkeep
  have hcontains : alistContainsKey (clean_custom_data p.custom_data) "value" = true := by
    unfold alistContainsKey
    rw [hvc]
    rfl
  have hgv : pyGet (clean_custom_data p.custom_data) "value" PyValue.pynone = v := by
    unfold pyGet
    rw [hvc]
    rfl
  have hcoerce0 : coerceFloat v = PyValue.float 0 := by
    unfold coerceFloat
    rw [hcoerce]
    rfl
  have hcur2 : pyGet (alistSet (clean_custom_data p.custom_data) "value"
      (coerceFloat (pyGet (clean_custom_data p.custom_data) "value" PyValue.pynone)))
      "currency" PyValue.pynone =
      pyGet (clean_custom_data p.custom_data) "currency" PyValue.pynone := by
    unfold pyGet
    rw [alistLookup_alistSet_ne _ _ _ _ (by decide)]
  have hctt : (pyGet (clean_custom_data p.custom_data) "currency" PyValue.pynone).truthy = true := by
    unfold pyGet
    rw [hc]
    exact hct
  unfold validate_with_fbp
  simp only [hcontains, hcur2, hctt, Bool.not_true, if_true, if_false, Bool.false_eq_true,
    reduceIte]
  refine ⟨_, rfl, ?_⟩
  rw [hgv, hcoerce0]
  exact alistLookup_alistSet_self _ _ _

/-- Witness for C9 (amended) at the spec's example
`{"value": "abc", "currency": "USD"}`. -/
theorem bad_value_coerced_to_zero_witness :
    floatCoerce (PyValue.str "abc") = none ∧
    (∃ vd : ValidatedData,
      validate_and_clean_data
        ⟨"Purchase", 0, none, "website", [],
          some [("value", PyValue.str "abc"), ("currency", PyValue.str "USD")], none⟩
        ⟨"", PyValue.str ""⟩ "req-9b" = .ok vd ∧
      alistLookup vd.custom_data "value" = some (PyValue.float 0)) :=
  ⟨rfl, bad_value_coerced_to_zero
    ⟨"Purchase", 0, none, "website", [],
      some [("value", PyValue.str "abc"), ("currency", PyValue.str "USD")], none⟩
    ⟨"", PyValue.str ""⟩ "req-9b" (PyValue.str "abc") (PyValue.str "USD")
    rfl rfl rfl rfl rfl rfl⟩

/-- C10: a `value` entry surviving the null-filter together with a
`currency` entry whose string form lowercases to "null" (which the
null-filter therefore drops) makes sanitization fail with
`CurrencyRequired`, even though the caller supplied a currency key. -/
theorem null_currency_dropped_causes_error (p : ClientPayload) (ci : ClientInfo) (rid : String)
    (v c : PyValue)
    (hfbp : (pyGet p.user_data "fbp" (PyValue.str "")).isStr = true)
    (hnd : ((p.custom_data.getD []).map Prod.fst).Nodup)
    (hv : alistLookup (p.custom_data.getD []) "value" = some v)
    (hkeep : cleanKeep v = true)
    (hc : alistLookup (p.custom_data.getD []) "currency" = some c)
    (hnull : pyLower (pyStr c) = "null") :
    validate_and_clean_data p ci rid = .error (.currencyRequired rid) := by
  obtain ⟨s, hs⟩ := isStr_exists hfbp
  rw [validate_via_fbp hs]
  have hvc : alistLookup (clean_custom_data p.custom_data) "value" = some v :=
    alistLookup_filter hv hkeep
  have hcontains : alistContainsKey (clean_custom_data p.custom_data) "value" = true := by
    unfold alistContainsKey
    rw [hvc]
    rfl
  have hdropped : alistLookup (clean_custom_data p.custom_data) "currency" = none := by
    apply alistLookup_filter_none
    intro w hw
    have hlw := alist_lookup_of_mem_nodup hnd hw
    rw [hc] at hlw
    injection hlw with hwc
    subst hwc
    simp [cleanKeep, hnull]
  have hcur2 : pyGet (alistSet (clean_custom_data p.custom_data) "value"
      (coerceFloat (pyGet (clean_custom_data p.custom_data) "value" PyValue.pynone)))
      "currency" PyValue.pynone = PyValue.pynone := by
    unfold pyGet
    rw [alistLookup_alistSet_ne _ _ _ _ (by decide), hdropped]
    rfl
  unfold validate_with_fbp
  simp [hcontains, hcur2, PyValue.truthy]

/-- Witness for C10 at the concrete input `{"value": 10, "currency": "NULL"}`. -/
theorem null_currency_dropped_causes_error_witness :
    pyLower (pyStr (PyValue.str "NULL")) = "null" ∧
    validate_and_clean_data
      ⟨"Purchase", 0, none, "website", [],
        some [("value", PyValue.int 10), ("currency", PyValue.str "NULL")], none⟩
      ⟨"", PyValue.str ""⟩ "req-10" = .error (.currencyRequired "req-10") :=
  ⟨rfl, null_currency_dropped_causes_error
    ⟨"Purchase", 0, none, "website", [],
      some [("value", PyValue.int 10), ("currency", PyValue.str "NULL")], none⟩
    ⟨"", PyValue.str ""⟩ "req-10" (PyValue.int 10) (PyValue.str "NULL")
    rfl (by decide) rfl rfl rfl rfl⟩

/-- C5: with a string (or absent) `fbp`, the sanitizer never fails because
of the origin address or the `fbp` cookie (its only failure is
`CurrencyRequired`); on success the origin address is passed through when
empty or valid and replaced by "" when truthy and invalid, and `fbp` is
passed through when empty or matching and replaced by "" when truthy and
non-matching — witnessed concretely by the spec's four examples. -/
theorem ip_fbp_leniency :
    (∀ (p : ClientPayload) (ci : ClientInfo) (rid : String),
      (pyGet p.user_data "fbp" (PyValue.str "")).isStr = true →
      (∀ e : PipeError, validate_and_clean_data p ci rid = .error e →
        e = .currencyRequired rid) ∧
      (∀ vd : ValidatedData, validate_and_clean_data p ci rid = .ok vd →
        vd.client_ip = (if ci.ip != "" && !ip_address_ok ci.ip then "" else ci.ip) ∧
        vd.fbp = PyValue.str
          (if (pyGet p.user_data "fbp" (PyValue.str "")).asStr != "" &&
              !fbpMatch (pyGet p.user_data "fbp" (PyValue.str "")).asStr then ""
           else (pyGet p.user_data "fbp" (PyValue.str "")).asStr))) ∧
    ip_address_ok "203.0.113.7" = true ∧
    ip_address_ok "999.999.999.999" = false ∧
    fbpMatch "fb.1.1554763741205.1234567890" = true ∧
    fbpMatch "not-a-cookie" = false := by
  refine ⟨?_, by decide, by decide, by decide, by decide⟩
  intro p ci rid hfbp
  obtain ⟨s, hs⟩ := isStr_exists hfbp
  constructor
  · intro e he
    rw [validate_via_fbp hs] at he
    exact validate_with_fbp_error he
  · intro vd hvd
    rw [validate_via_fbp hs] at hvd
    have hf := validate_with_fbp_ok_fields hvd
    refine ⟨hf.1, ?_⟩
    rw [hf.2.2.1, hs]
    exact rfl

/-- Witness for C5's quantified clause at a concrete request carrying an
invalid origin address and an invalid cookie. -/
theorem ip_fbp_leniency_witness :
    (pyGet [("fbp", PyValue.str "not-a-cookie")] "fbp" (PyValue.str "")).isStr = true ∧
    ((∀ e : PipeError,
        validate_and_clean_data
          ⟨"Purchase", 0, none, "website", [("fbp", PyValue.str "not-a-cookie")], none, none⟩
          ⟨"999.999.999.999", PyValue.str "agent"⟩ "req-5" = .error e →
        e = .currencyRequired "req-5") ∧
      (∀ vd : ValidatedData,
        validate_and_clean_data
          ⟨"Purchase", 0, none, "website", [("fbp", PyValue.str "not-a-cookie")], none, none⟩
          ⟨"999.999.999.999", PyValue.str "agent"⟩ "req-5" = .ok vd →
        vd.client_ip = (if ("999.999.999.999" : String) != "" &&
            !ip_address_ok "999.999.999.999" then "" else "999.999.999.999") ∧
        vd.fbp = PyValue.str
          (if (pyGet [("fbp", PyValue.str "not-a-cookie")] "fbp" (PyValue.str "")).asStr != "" &&
              !fbpMatch (pyGet [("fbp", PyValue.str "not-a-cookie")] "fbp"
                (PyValue.str "")).asStr then ""
           else (pyGet [("fbp", PyValue.str "not-a-cookie")] "fbp" (PyValue.str "")).asStr))) :=
  ⟨rfl, ip_fbp_leniency.1
    ⟨"Purchase", 0, none, "website", [("fbp", PyValue.str "not-a-cookie")], none, none⟩
    ⟨"999.999.999.999", PyValue.str "agent"⟩ "req-5" rfl⟩

/-- C6: whenever the Sanitize stage fails with `CurrencyRequired`, the
pipeline surfaces exactly that failure, the Hash and Assemble stages are
never invoked, and Sanitize itself ran exactly once (no internal retry). -/
theorem pipeline_sanitize_failure_aborts (p : ClientPayload) (req : TransportRequest)
    (rid rid' : String)
    (h : validate_and_clean_data p (extract_client_info req p) rid =
      .error (.currencyRequired rid')) :
    (process_event p req rid).1 = .error (.currencyRequired rid') ∧
    (process_event p req rid).2 = [Stage.extract, Stage.sanitize] ∧
    Stage.hashStage ∉ (process_event p req rid).2 ∧
    Stage.assemble ∉ (process_event p req rid).2 ∧
    (process_event p req rid).2.count Stage.sanitize = 1 := by
  have hp : process_event p req rid =
      (.error (.currencyRequired rid'), [Stage.extract, Stage.sanitize]) := by
    simp only [process_event]
    rw [h]
  rw [hp]
  refine ⟨rfl, rfl, ?_, ?_, rfl⟩
  · show Stage.hashStage ∉ [Stage.extract, Stage.sanitize]
    decide
  · show Stage.assemble ∉ [Stage.extract, Stage.sanitize]
    decide

/-- Witness for C6 at a concrete payload whose custom attributes carry a
value without a currency. -/
theorem pipeline_sanitize_failure_aborts_witness :
    validate_and_clean_data
      ⟨"Purchase", 0, none, "website", [], some [("value", PyValue.int 10)], none⟩
      (extract_client_info ⟨none, "", none⟩
        ⟨"Purchase", 0, none, "website", [], some [("value", PyValue.int 10)], none⟩)
      "req-6" = .error (.currencyRequired "req-6") ∧
    ((process_event
        ⟨"Purchase", 0, none, "website", [], some [("value", PyValue.int 10)], none⟩
        ⟨none, "", none⟩ "req-6").1 = .error (.currencyRequired "req-6") ∧
      (process_event
        ⟨"Purchase", 0, none, "website", [], some [("value", PyValue.int 10)], none⟩
        ⟨none, "", none⟩ "req-6").2 = [Stage.extract, Stage.sanitize] ∧
      Stage.hashStage ∉ (process_event
        ⟨"Purchase", 0, none, "website", [], some [("value", PyValue.int 10)], none⟩
        ⟨none, "", none⟩ "req-6").2 ∧
      Stage.assemble ∉ (process_event
        ⟨"Purchase", 0, none, "website", [], some [("value", PyValue.int 10)], none⟩
        ⟨none, "", none⟩ "req-6").2 ∧
      (process_event
        ⟨"Purchase", 0, none, "website", [], some [("value", PyValue.int 10)], none⟩
        ⟨none, "", none⟩ "req-6").2.count Stage.sanitize = 1) :=
  ⟨rfl, pipeline_sanitize_failure_aborts
    ⟨"Purchase", 0, none, "website", [], some [("value", PyValue.int 10)], none⟩
    ⟨none, "", none⟩ "req-6" "req-6" rfl⟩

theorem hashStr_ne_empty (s : String) : hashStr s ≠ "" :=
  sha256hex_ne_empty _

theorem hash_user_data_ok_facts {ud : List (String × PyValue)} {rid : String}
    {hashed : List (String × String)} (h : hash_user_data ud rid = .ok hashed) :
    (∀ kd ∈ hashed, kd.1 ∈ providerKeys) ∧ (hashed.map Prod.fst).Nodup ∧
    (∀ kd ∈ hashed, kd.2 ≠ "") := by
  unfold hash_user_data at h
  have hk := hashEntries_ok_keys h
  have hsub : (hashed.map Prod.fst).Sublist providerKeys := by
    rw [hk, ← piiFields_keys ud]
    exact (List.filter_sublist _).map Prod.fst
  refine ⟨?_, hsub.nodup (by decide), ?_⟩
  · intro kd hkd
    exact hsub.subset (List.mem_map.mpr ⟨kd, hkd, rfl⟩)
  · intro kd hkd
    obtain ⟨v, hv, hok⟩ := hashEntries_ok_mem h kd hkd
    obtain ⟨_, ht⟩ := List.mem_filter.mp hv
    obtain ⟨s, _, _, hd⟩ := hash_data_ok_truthy ht hok
    rw [hd]
    exact hashStr_ne_empty s

theorem pyNotNone_pyOrNone (k : String) (v : PyValue) :
    pyNotNone (k, pyOrNone v) = v.truthy := by
  cases htv : v.truthy with
  | true =>
    simp only [pyOrNone, htv, if_true]
    cases v <;> simp [pyNotNone, PyValue.truthy] at htv ⊢
  | false => simp [pyOrNone, htv, pyNotNone]

theorem pyNotNone_ne_pynone {kv : String × PyValue} (h : pyNotNone kv = true) :
    kv.2 ≠ PyValue.pynone := by
  intro hv
  obtain ⟨k, v⟩ := kv
  simp only at hv
  subst hv
  simp [pyNotNone] at h

theorem pyNotNone_of_truthy {v : PyValue} (h : v.truthy = true) (k : String) :
    pyNotNone (k, v) = true := by
  cases v <;> simp [pyNotNone, PyValue.truthy] at h ⊢

theorem pyNotNone_pynone (k : String) : pyNotNone (k, PyValue.pynone) = false := rfl

theorem filter_base_eq (a b c d : PyValue) (k1 k2 k3 k4 : String) :
    ([(k1, pyOrNone a), (k2, pyOrNone b), (k3, pyOrNone c), (k4, pyOrNone d)].filter pyNotNone) =
      ((if a.truthy then [(k1, a)] else []) ++ (if b.truthy then [(k2, b)] else []) ++
       (if c.truthy then [(k3, c)] else []) ++ (if d.truthy then [(k4, d)] else [])) := by
  by_cases h1 : a.truthy = true <;> by_cases h2 : b.truthy = true <;>
    by_cases h3 : c.truthy = true <;> by_cases h4 : d.truthy = true <;>
    simp [List.filter_cons, pyOrNone, h1, h2, h3, h4, pyNotNone_of_truthy, pyNotNone_pynone]

theorem lookup_condSingle_self {α : Type} (b : Bool) (k : String) (v : α) :
    alistLookup (if b then [(k, v)] else []) k = if b then some v else none := by
  cases b <;> simp [alistLookup]

theorem lookup_condSingle_ne {α : Type} (b : Bool) (k0 k : String) (v : α) (h : k0 ≠ k) :
    alistLookup (if b then [(k0, v)] else []) k = none := by
  cases b <;> simp [alistLookup, h]

theorem mem_condSingle {α : Type} {b : Bool} {k0 k : String} {v0 v : α}
    (h : (k, v) ∈ (if b then [(k0, v0)] else [])) : k = k0 ∧ v = v0 := by
  cases b <;> simp_all

theorem base_lookup_none (a b c d : PyValue) {k : String} (hk : k ∈ providerKeys) :
    alistLookup [("client_ip_address", a), ("client_user_agent", b), ("fbc", c), ("fbp", d)]
      k = none := by
  fin_cases hk <;> rfl

/-- C4: for every successfully hashed identity, the outbound document is a
one-element `data` sequence; its user-data object is the union of the four
request signals (each present exactly when non-empty/truthy) with all
entries of the hashed identity; `custom_data` is the cleaned custom
attributes verbatim; `event_source_url` and `test_event_code` are omitted
entirely when empty or absent; and no user-data value is None. -/
theorem build_meta_payload_structure (p : ClientPayload) (vd : ValidatedData)
    (ud : List (String × PyValue)) (rid : String) (hashed : List (String × String))
    (h : hash_user_data ud rid = .ok hashed) :
    ∃ ed userd : List (String × PyValue),
      build_meta_payload p vd hashed =
        [("data", PyValue.list [PyValue.dict ed])] ++
          (match p.test_event_code with
           | some c => if c ≠ "" then [("test_event_code", PyValue.str c)] else []
           | none => []) ∧
      alistLookup ed "user_data" = some (PyValue.dict userd) ∧
      alistLookup ed "custom_data" = some (PyValue.dict vd.custom_data) ∧
      alistLookup ed "event_source_url" =
        (match p.event_source_url with
         | some u => if u ≠ "" then some (PyValue.str u) else none
         | none => none) ∧
      alistLookup userd "client_ip_address" =
        (if vd.client_ip ≠ "" then some (PyValue.str vd.client_ip) else none) ∧
      alistLookup userd "client_user_agent" =
        (if vd.client_user_agent.truthy then some vd.client_user_agent else none) ∧
      alistLookup userd "fbc" = (if vd.fbc.truthy then some vd.fbc else none) ∧
      alistLookup userd "fbp" = (if vd.fbp.truthy then some vd.fbp else none) ∧
      (∀ kd ∈ hashed, (kd.1, PyValue.str kd.2) ∈ userd) ∧
      (∀ kv ∈ userd, kv.2 ≠ PyValue.pynone) ∧
      (∀ kv ∈ userd,
        kv ∈ ([("client_ip_address", PyValue.str vd.client_ip),
               ("client_user_agent", vd.client_user_agent),
               ("fbc", vd.fbc), ("fbp", vd.fbp)] : List (String × PyValue)) ∨
        ∃ dv : String, (kv.1, dv) ∈ hashed ∧ kv.2 = PyValue.str dv) := by
  obtain ⟨hkeys, hnodup, hvals⟩ := hash_user_data_ok_facts h
  have hlkeys : (hashed.map (fun kd => (kd.1, PyValue.str kd.2))).map Prod.fst = hashed.map Prod.fst := by
    rw [List.map_map]
    rfl
  have hlnodup : ((hashed.map (fun kd => (kd.1, PyValue.str kd.2))).map Prod.fst).Nodup := by
    rw [hlkeys]
    exact hnodup
  have hl_base_none : ∀ k : String, k ∉ providerKeys →
      alistLookup (hashed.map (fun kd => (kd.1, PyValue.str kd.2))) k = none := by
    intro k hk
    apply alistLookup_none_of_not_mem
    rw [hlkeys]
    intro hkm
    obtain ⟨kd, hkd, hfst⟩ := List.mem_map.mp hkm
    exact hk (hfst ▸ hkeys kd hkd)
  have hupd : dictUpdate
      [("client_ip_address", pyOrNone (PyValue.str vd.client_ip)),
      ("client_user_agent", pyOrNone vd.client_user_agent),
      ("fbc", pyOrNone vd.fbc), ("fbp", pyOrNone vd.fbp)]
      (hashed.map (fun kd => (kd.1, PyValue.str kd.2))) =
      [("client_ip_address", pyOrNone (PyValue.str vd.client_ip)),
      ("client_user_agent", pyOrNone vd.client_user_agent),
      ("fbc", pyOrNone vd.fbc), ("fbp", pyOrNone vd.fbp)] ++ hashed.map (fun kd => (kd.1, PyValue.str kd.2)) := by
    apply dictUpdate_disjoint
    · intro kv hkv
      obtain ⟨kd, hkd, hkveq⟩ := List.mem_map.mp hkv
      subst hkveq
      exact base_lookup_none _ _ _ _ (hkeys kd hkd)
    · exact hlnodup
  have hlfilter : (hashed.map (fun kd => (kd.1, PyValue.str kd.2))).filter pyNotNone = hashed.map (fun kd => (kd.1, PyValue.str kd.2)) := by
    apply List.filter_eq_self.mpr
    intro kv hkv
    obtain ⟨kd, hkd, hkveq⟩ := List.mem_map.mp hkv
    subst hkveq
    rfl
  have hAeq := filter_base_eq (PyValue.str vd.client_ip) vd.client_user_agent vd.fbc vd.fbp
    "client_ip_address" "client_user_agent" "fbc" "fbp"
  have lcia : alistLookup (([("client_ip_address", pyOrNone (PyValue.str vd.client_ip)),
      ("client_user_agent", pyOrNone vd.client_user_agent),
      ("fbc", pyOrNone vd.fbc), ("fbp", pyOrNone vd.fbp)].filter pyNotNone) ++ hashed.map (fun kd => (kd.1, PyValue.str kd.2))) "client_ip_address" =
      (if vd.client_ip ≠ "" then some (PyValue.str vd.client_ip) else none) := by
    rw [alistLookup_append, hAeq]
    simp only [alistLookup_append, lookup_condSingle_self,
      lookup_condSingle_ne vd.client_user_agent.truthy "client_user_agent" "client_ip_address" _
        (by decide),
      lookup_condSingle_ne vd.fbc.truthy "fbc" "client_ip_address" _ (by decide),
      lookup_condSingle_ne vd.fbp.truthy "fbp" "client_ip_address" _ (by decide),
      hl_base_none "client_ip_address" (by decide)]
    by_cases hip : vd.client_ip = ""
    · simp [hip, PyValue.truthy]
    · simp [hip, PyValue.truthy]
  have lua : alistLookup (([("client_ip_address", pyOrNone (PyValue.str vd.client_ip)),
      ("client_user_agent", pyOrNone vd.client_user_agent),
      ("fbc", pyOrNone vd.fbc), ("fbp", pyOrNone vd.fbp)].filter pyNotNone) ++ hashed.map (fun kd => (kd.1, PyValue.str kd.2))) "client_user_agent" =
      (if vd.client_user_agent.truthy then some vd.client_user_agent else none) := by
    rw [alistLookup_append, hAeq]
    simp only [alistLookup_append, lookup_condSingle_self,
      lookup_condSingle_ne (PyValue.str vd.client_ip).truthy "client_ip_address"
        "client_user_agent" _ (by decide),
      lookup_condSingle_ne vd.fbc.truthy "fbc" "client_user_agent" _ (by decide),
      lookup_condSingle_ne vd.fbp.truthy "fbp" "client_user_agent" _ (by decide),
      hl_base_none "client_user_agent" (by decide)]
    by_cases hb : vd.client_user_agent.truthy = true
    · simp [hb]
    · simp at hb
      simp [hb]
  have lfbc : alistLookup (([("client_ip_address", pyOrNone (PyValue.str vd.client_ip)),
      ("client_user_agent", pyOrNone vd.client_user_agent),
      ("fbc", pyOrNone vd.fbc), ("fbp", pyOrNone vd.fbp)].filter pyNotNone) ++ hashed.map (fun kd => (kd.1, PyValue.str kd.2))) "fbc" = (if vd.fbc.truthy then some vd.fbc else none) := by
    rw [alistLookup_append, hAeq]
    simp only [alistLookup_append, lookup_condSingle_self,
      lookup_condSingle_ne (PyValue.str vd.client_ip).truthy "client_ip_address" "fbc" _
        (by decide),
      lookup_condSingle_ne vd.client_user_agent.truthy "client_user_agent" "fbc" _ (by decide),
      lookup_condSingle_ne vd.fbp.truthy "fbp" "fbc" _ (by decide),
      hl_base_none "fbc" (by decide)]
    by_cases hb : vd.fbc.truthy = true
    · simp [hb]
    · simp at hb
      simp [hb]
  have lfbp : alistLookup (([("client_ip_address", pyOrNone (PyValue.str vd.client_ip)),
      ("client_user_agent", pyOrNone vd.client_user_agent),
      ("fbc", pyOrNone vd.fbc), ("fbp", pyOrNone vd.fbp)].filter pyNotNone) ++ hashed.map (fun kd => (kd.1, PyValue.str kd.2))) "fbp" = (if vd.fbp.truthy then some vd.fbp else none) := by
    rw [alistLookup_append, hAeq]
    simp only [alistLookup_append, lookup_condSingle_self,
      lookup_condSingle_ne (PyValue.str vd.client_ip).truthy "client_ip_address" "fbp" _
        (by decide),
      lookup_condSingle_ne vd.client_user_agent.truthy "client_user_agent" "fbp" _ (by decide),
      lookup_condSingle_ne vd.fbc.truthy "fbc" "fbp" _ (by decide),
      hl_base_none "fbp" (by decide)]
    by_cases hb : vd.fbp.truthy = true
    · simp [hb]
    · simp at hb
      simp [hb]
  have hmemhash : ∀ kd ∈ hashed, (kd.1, PyValue.str kd.2) ∈ (([("client_ip_address", pyOrNone (PyValue.str vd.client_ip)),
      ("client_user_agent", pyOrNone vd.client_user_agent),
      ("fbc", pyOrNone vd.fbc), ("fbp", pyOrNone vd.fbp)].filter pyNotNone) ++ hashed.map (fun kd => (kd.1, PyValue.str kd.2))) := by
    intro kd hkd
    exact List.mem_append.mpr (Or.inr (List.mem_map.mpr ⟨kd, hkd, rfl⟩))
  have hnonone : ∀ kv ∈ (([("client_ip_address", pyOrNone (PyValue.str vd.client_ip)),
      ("client_user_agent", pyOrNone vd.client_user_agent),
      ("fbc", pyOrNone vd.fbc), ("fbp", pyOrNone vd.fbp)].filter pyNotNone) ++ hashed.map (fun kd => (kd.1, PyValue.str kd.2))), kv.2 ≠ PyValue.pynone := by
    intro kv hkv
    rcases List.mem_append.mp hkv with hA | hH
    · exact pyNotNone_ne_pynone (List.mem_filter.mp hA).2
    · obtain ⟨kd, hkd, hkveq⟩ := List.mem_map.mp hH
      subst hkveq
      simp
  have hupper : ∀ kv ∈ (([("client_ip_address", pyOrNone (PyValue.str vd.client_ip)),
      ("client_user_agent", pyOrNone vd.client_user_agent),
      ("fbc", pyOrNone vd.fbc), ("fbp", pyOrNone vd.fbp)].filter pyNotNone) ++ hashed.map (fun kd => (kd.1, PyValue.str kd.2))),
      kv ∈ ([("client_ip_address", PyValue.str vd.client_ip),
             ("client_user_agent", vd.client_user_agent),
             ("fbc", vd.fbc), ("fbp", vd.fbp)] : List (String × PyValue)) ∨
      ∃ dv : String, (kv.1, dv) ∈ hashed ∧ kv.2 = PyValue.str dv := by
    intro kv hkv
    rcases List.mem_append.mp hkv with hA | hH
    · left
      rw [hAeq] at hA
      obtain ⟨k, v⟩ := kv
      rcases List.mem_append.mp hA with hA3 | h4
      · rcases List.mem_append.mp hA3 with hA2 | h3
        · rcases List.mem_append.mp hA2 with h1 | h2
          · obtain ⟨rfl, rfl⟩ := mem_condSingle h1
            simp
          · obtain ⟨rfl, rfl⟩ := mem_condSingle h2
            simp
        · obtain ⟨rfl, rfl⟩ := mem_condSingle h3
          simp
      · obtain ⟨rfl, rfl⟩ := mem_condSingle h4
        simp
    · right
      obtain ⟨kd, hkd, hkveq⟩ := List.mem_map.mp hH
      subst hkveq
      exact ⟨kd.2, hkd, rfl⟩
  have hEq1 : build_meta_payload p vd hashed =
      [("data", PyValue.list [PyValue.dict (match p.event_source_url with
      | some u =>
        if u ≠ "" then
          [("event_name", PyValue.str p.event_name), ("event_time", PyValue.int p.event_time),
      ("action_source", PyValue.str p.action_source),
      ("user_data", PyValue.dict (([("client_ip_address", pyOrNone (PyValue.str vd.client_ip)),
      ("client_user_agent", pyOrNone vd.client_user_agent),
      ("fbc", pyOrNone vd.fbc), ("fbp", pyOrNone vd.fbp)].filter pyNotNone) ++ hashed.map (fun kd => (kd.1, PyValue.str kd.2)))),
      ("custom_data", PyValue.dict vd.custom_data)] ++ [("event_source_url", PyValue.str u)]
        else [("event_name", PyValue.str p.event_name), ("event_time", PyValue.int p.event_time),
      ("action_source", PyValue.str p.action_source),
      ("user_data", PyValue.dict (([("client_ip_address", pyOrNone (PyValue.str vd.client_ip)),
      ("client_user_agent", pyOrNone vd.client_user_agent),
      ("fbc", pyOrNone vd.fbc), ("fbp", pyOrNone vd.fbp)].filter pyNotNone) ++ hashed.map (fun kd => (kd.1, PyValue.str kd.2)))),
      ("custom_data", PyValue.dict vd.custom_data)]
      | none => [("event_name", PyValue.str p.event_name), ("event_time", PyValue.int p.event_time),
      ("action_source", PyValue.str p.action_source),
      ("user_data", PyValue.dict (([("client_ip_address", pyOrNone (PyValue.str vd.client_ip)),
      ("client_user_agent", pyOrNone vd.client_user_agent),
      ("fbc", pyOrNone vd.fbc), ("fbp", pyOrNone vd.fbp)].filter pyNotNone) ++ hashed.map (fun kd => (kd.1, PyValue.str kd.2)))),
      ("custom_data", PyValue.dict vd.custom_data)])])] ++
        (match p.test_event_code with
         | some c => if c ≠ "" then [("test_event_code", PyValue.str c)] else []
         | none => []) := by
    simp only [build_meta_payload]
    rw [hupd, List.filter_append, hlfilter]
    rcases p.test_event_code with _ | c
    · simp
    · by_cases hc : c ≠ ""
      · simp [hc]
      · simp [hc]
  have hed_ud : alistLookup (match p.event_source_url with
      | some u =>
        if u ≠ "" then
          [("event_name", PyValue.str p.event_name), ("event_time", PyValue.int p.event_time),
      ("action_source", PyValue.str p.action_source),
      ("user_data", PyValue.dict (([("client_ip_address", pyOrNone (PyValue.str vd.client_ip)),
      ("client_user_agent", pyOrNone vd.client_user_agent),
      ("fbc", pyOrNone vd.fbc), ("fbp", pyOrNone vd.fbp)].filter pyNotNone) ++ hashed.map (fun kd => (kd.1, PyValue.str kd.2)))),
      ("custom_data", PyValue.dict vd.custom_data)] ++ [("event_source_url", PyValue.str u)]
        else [("event_name", PyValue.str p.event_name), ("event_time", PyValue.int p.event_time),
      ("action_source", PyValue.str p.action_source),
      ("user_data", PyValue.dict (([("client_ip_address", pyOrNone (PyValue.str vd.client_ip)),
      ("client_user_agent", pyOrNone vd.client_user_agent),
      ("fbc", pyOrNone vd.fbc), ("fbp", pyOrNone vd.fbp)].filter pyNotNone) ++ hashed.map (fun kd => (kd.1, PyValue.str kd.2)))),
      ("custom_data", PyValue.dict vd.custom_data)]
      | none => [("event_name", PyValue.str p.event_name), ("event_time", PyValue.int p.event_time),
      ("action_source", PyValue.str p.action_source),
      ("user_data", PyValue.dict (([("client_ip_address", pyOrNone (PyValue.str vd.client_ip)),
      ("client_user_agent", pyOrNone vd.client_user_agent),
      ("fbc", pyOrNone vd.fbc), ("fbp", pyOrNone vd.fbp)].filter pyNotNone) ++ hashed.map (fun kd => (kd.1, PyValue.str kd.2)))),
      ("custom_data", PyValue.dict vd.custom_data)]) "user_data" = some (PyValue.dict (([("client_ip_address", pyOrNone (PyValue.str vd.client_ip)),
      ("client_user_agent", pyOrNone vd.client_user_agent),
      ("fbc", pyOrNone vd.fbc), ("fbp", pyOrNone vd.fbp)].filter pyNotNone) ++ hashed.map (fun kd => (kd.1, PyValue.str kd.2)))) := by
    rcases p.event_source_url with _ | u
    · rfl
    · by_cases hu : u ≠ ""
      · dsimp only
        rw [if_pos hu]
        rfl
      · dsimp only
        rw [if_neg hu]
        rfl
  have hed_cd : alistLookup (match p.event_source_url with
      | some u =>
        if u ≠ "" then
          [("event_name", PyValue.str p.event_name), ("event_time", PyValue.int p.event_time),
      ("action_source", PyValue.str p.action_source),
      ("user_data", PyValue.dict (([("client_ip_address", pyOrNone (PyValue.str vd.client_ip)),
      ("client_user_agent", pyOrNone vd.client_user_agent),
      ("fbc", pyOrNone vd.fbc), ("fbp", pyOrNone vd.fbp)].filter pyNotNone) ++ hashed.map (fun kd => (kd.1, PyValue.str kd.2)))),
      ("custom_data", PyValue.dict vd.custom_data)] ++ [("event_source_url", PyValue.str u)]
        else [("event_name", PyValue.str p.event_name), ("event_time", PyValue.int p.event_time),
      ("action_source", PyValue.str p.action_source),
      ("user_data", PyValue.dict (([("client_ip_address", pyOrNone (PyValue.str vd.client_ip)),
      ("client_user_agent", pyOrNone vd.client_user_agent),
      ("fbc", pyOrNone vd.fbc), ("fbp", pyOrNone vd.fbp)].filter pyNotNone) ++ hashed.map (fun kd => (kd.1, PyValue.str kd.2)))),
      ("custom_data", PyValue.dict vd.custom_data)]
      | none => [("event_name", PyValue.str p.event_name), ("event_time", PyValue.int p.event_time),
      ("action_source", PyValue.str p.action_source),
      ("user_data", PyValue.dict (([("client_ip_address", pyOrNone (PyValue.str vd.client_ip)),
      ("client_user_agent", pyOrNone vd.client_user_agent),
      ("fbc", pyOrNone vd.fbc), ("fbp", pyOrNone vd.fbp)].filter pyNotNone) ++ hashed.map (fun kd => (kd.1, PyValue.str kd.2)))),
      ("custom_data", PyValue.dict vd.custom_data)]) "custom_data" = some (PyValue.dict vd.custom_data) := by
    rcases p.event_source_url with _ | u
    · rfl
    · by_cases hu : u ≠ ""
      · dsimp only
        rw [if_pos hu]
        rfl
      · dsimp only
        rw [if_neg hu]
        rfl
  have hed_url : alistLookup (match p.event_source_url with
      | some u =>
        if u ≠ "" then
          [("event_name", PyValue.str p.event_name), ("event_time", PyValue.int p.event_time),
      ("action_source", PyValue.str p.action_source),
      ("user_data", PyValue.dict (([("client_ip_address", pyOrNone (PyValue.str vd.client_ip)),
      ("client_user_agent", pyOrNone vd.client_user_agent),
      ("fbc", pyOrNone vd.fbc), ("fbp", pyOrNone vd.fbp)].filter pyNotNone) ++ hashed.map (fun kd => (kd.1, PyValue.str kd.2)))),
      ("custom_data", PyValue.dict vd.custom_data)] ++ [("event_source_url", PyValue.str u)]
        else [("event_name", PyValue.str p.event_name), ("event_time", PyValue.int p.event_time),
      ("action_source", PyValue.str p.action_source),
      ("user_data", PyValue.dict (([("client_ip_address", pyOrNone (PyValue.str vd.client_ip)),
      ("client_user_agent", pyOrNone vd.client_user_agent),
      ("fbc", pyOrNone vd.fbc), ("fbp", pyOrNone vd.fbp)].filter pyNotNone) ++ hashed.map (fun kd => (kd.1, PyValue.str kd.2)))),
      ("custom_data", PyValue.dict vd.custom_data)]
      | none => [("event_name", PyValue.str p.event_name), ("event_time", PyValue.int p.event_time),
      ("action_source", PyValue.str p.action_source),
      ("user_data", PyValue.dict (([("client_ip_address", pyOrNone (PyValue.str vd.client_ip)),
      ("client_user_agent", pyOrNone vd.client_user_agent),
      ("fbc", pyOrNone vd.fbc), ("fbp", pyOrNone vd.fbp)].filter pyNotNone) ++ hashed.map (fun kd => (kd.1, PyValue.str kd.2)))),
      ("custom_data", PyValue.dict vd.custom_data)]) "event_source_url" =
      (match p.event_source_url with
       | some u => if u ≠ "" then some (PyValue.str u) else none
       | none => none) := by
    rcases p.event_source_url with _ | u
    · rfl
    · by_cases hu : u ≠ ""
      · dsimp only
        rw [if_pos hu, if_pos hu]
        rfl
      · dsimp only
        rw [if_neg hu, if_neg hu]
        rfl
  exact ⟨(match p.event_source_url with
      | some u =>
        if u ≠ "" then
          [("event_name", PyValue.str p.event_name), ("event_time", PyValue.int p.event_time),
      ("action_source", PyValue.str p.action_source),
      ("user_data", PyValue.dict (([("client_ip_address", pyOrNone (PyValue.str vd.client_ip)),
      ("client_user_agent", pyOrNone vd.client_user_agent),
      ("fbc", pyOrNone vd.fbc), ("fbp", pyOrNone vd.fbp)].filter pyNotNone) ++ hashed.map (fun kd => (kd.1, PyValue.str kd.2)))),
      ("custom_data", PyValue.dict vd.custom_data)] ++ [("event_source_url", PyValue.str u)]
        else [("event_name", PyValue.str p.event_name), ("event_time", PyValue.int p.event_time),
      ("action_source", PyValue.str p.action_source),
      ("user_data", PyValue.dict (([("client_ip_address", pyOrNone (PyValue.str vd.client_ip)),
      ("client_user_agent", pyOrNone vd.client_user_agent),
      ("fbc", pyOrNone vd.fbc), ("fbp", pyOrNone vd.fbp)].filter pyNotNone) ++ hashed.map (fun kd => (kd.1, PyValue.str kd.2)))),
      ("custom_data", PyValue.dict vd.custom_data)]
      | none => [("event_name", PyValue.str p.event_name), ("event_time", PyValue.int p.event_time),
      ("action_source", PyValue.str p.action_source),
      ("user_data", PyValue.dict (([("client_ip_address", pyOrNone (PyValue.str vd.client_ip)),
      ("client_user_agent", pyOrNone vd.client_user_agent),
      ("fbc", pyOrNone vd.fbc), ("fbp", pyOrNone vd.fbp)].filter pyNotNone) ++ hashed.map (fun kd => (kd.1, PyValue.str kd.2)))),
      ("custom_data", PyValue.dict vd.custom_data)]), (([("client_ip_address", pyOrNone (PyValue.str vd.client_ip)),
      ("client_user_agent", pyOrNone vd.client_user_agent),
      ("fbc", pyOrNone vd.fbc), ("fbp", pyOrNone vd.fbp)].filter pyNotNone) ++ hashed.map (fun kd => (kd.1, PyValue.str kd.2))),
    hEq1, hed_ud, hed_cd, hed_url, lcia, lua, lfbc, lfbp, hmemhash, hnonone, hupper⟩

/-- Witness for C4 at a concrete payload and sanitized context (empty
hashed identity, url and test code supplied, `fbp` empty). -/
theorem build_meta_payload_structure_witness :
    hash_user_data [] "req-4" = .ok [] ∧
    (∃ ed userd : List (String × PyValue),
      build_meta_payload
          ⟨"Purchase", 1703980800, some "https://example.com/checkout", "website", [],
            some [("currency", PyValue.str "USD")], some "TEST1"⟩
          ⟨"1.2.3.4", PyValue.str "UA", PyValue.str "", PyValue.str "fbc.x",
            [("currency", PyValue.str "USD")]⟩ [] =
        [("data", PyValue.list [PyValue.dict ed])] ++
          [("test_event_code", PyValue.str "TEST1")] ∧
      alistLookup ed "user_data" = some (PyValue.dict userd) ∧
      alistLookup ed "custom_data" = some (PyValue.dict [("currency", PyValue.str "USD")]) ∧
      alistLookup ed "event_source_url" =
        some (PyValue.str "https://example.com/checkout") ∧
      alistLookup userd "client_ip_address" = some (PyValue.str "1.2.3.4") ∧
      alistLookup userd "client_user_agent" = some (PyValue.str "UA") ∧
      alistLookup userd "fbc" = some (PyValue.str "fbc.x") ∧
      alistLookup userd "fbp" = none ∧
      (∀ kd ∈ ([] : List (String × String)), (kd.1, PyValue.str kd.2) ∈ userd) ∧
      (∀ kv ∈ userd, kv.2 ≠ PyValue.pynone) ∧
      (∀ kv ∈ userd,
        kv ∈ ([("client_ip_address", PyValue.str "1.2.3.4"),
               ("client_user_agent", PyValue.str "UA"),
               ("fbc", PyValue.str "fbc.x"), ("fbp", PyValue.str "")] :
              List (String × PyValue)) ∨
        ∃ dv : String, (kv.1, dv) ∈ ([] : List (String × String)) ∧
          kv.2 = PyValue.str dv)) :=
  ⟨rfl, build_meta_payload_structure
    ⟨"Purchase", 1703980800, some "https://example.com/checkout", "website", [],
      some [("currency", PyValue.str "USD")], some "TEST1"⟩
    ⟨"1.2.3.4", PyValue.str "UA", PyValue.str "", PyValue.str "fbc.x",
      [("currency", PyValue.str "USD")]⟩ [] "req-4" [] rfl⟩
